import Mathlib

/-!
Formal model of the email ingestion core of the `brett` repository:
`src/brett/core/email_parser.py` and
`src/brett/core/management/commands/review_emails.py`.

Python strings are modelled as lists of Unicode characters (`PyStr`), byte
strings as lists of naturals (`PyBytes`).  Python functions that can raise an
exception are modelled as `Option`-returning functions, `none` standing for a
propagated exception.  Behaviour of the Python standard library (`email`
package, codec machinery, `email.utils` date parsing) is modelled explicitly
where the repository's code depends on it; modelling notes are given in the
doc comments of the corresponding definitions.
-/

abbrev PyStr := List Char
abbrev PyBytes := List Nat

def litS (s : String) : PyStr := s.data

/-- ASCII whitespace characters, as recognised by Python's `str.strip` and the
regex class `\s` on the inputs considered here (the model restricts itself to
ASCII whitespace). -/
def isPySpace (c : Char) : Bool :=
  c == ' ' || c == '\t' || c == '\n' || c == '\r' ||
  c == Char.ofNat 11 || c == Char.ofNat 12

def isSpTab (c : Char) : Bool := c == ' ' || c == '\t'

/-- Model of Python `str.lstrip()` (ASCII whitespace). -/
def pyLstrip (l : PyStr) : PyStr := l.dropWhile isPySpace

/-- Model of Python `str.rstrip()` (ASCII whitespace). -/
def pyRstrip (l : PyStr) : PyStr := (l.reverse.dropWhile isPySpace).reverse

/-- Model of Python `str.strip()` (ASCII whitespace). -/
def pyStrip (l : PyStr) : PyStr := pyRstrip (pyLstrip l)

/-- Model of Python `str.lstrip(' \t')`. -/
def lstripSpTab (l : PyStr) : PyStr := l.dropWhile isSpTab

/-- Model of Python `str.rstrip('\r\n')`. -/
def rstripNlCr (l : PyStr) : PyStr :=
  (l.reverse.dropWhile (fun c => c == '\n' || c == '\r')).reverse

/-- ASCII lower-casing of a character (Python `str.lower` restricted to
ASCII, which covers all header names and tokens handled here). -/
def lowerStr (l : PyStr) : PyStr := l.map Char.toLower

/-- Model of Python `str.split(sep)` for a one-character separator. -/
def splitOnChar (sep : Char) : PyStr → List PyStr
  | [] => [[]]
  | c :: cs =>
    let r := splitOnChar sep cs
    if c == sep then [] :: r
    else
      match r with
      | [] => [[c]]
      | h :: t => (c :: h) :: t

/-- Model of Python `str.split()` (split on whitespace runs, dropping empty
pieces). -/
def splitWs (l : PyStr) : List PyStr :=
  ((splitOnChar ' ' (l.map (fun c => if isPySpace c then ' ' else c))).filter
    (fun p => p ≠ []))

def joinNl (ls : List PyStr) : PyStr := List.intercalate ['\n'] ls

/-- Index of the first occurrence of character `c`, Python `str.find` when the
result exists. -/
def findIdxChar (c : Char) : PyStr → Option Nat
  | [] => none
  | x :: xs => if x == c then some 0 else (findIdxChar c xs).map (· + 1)

/-- Index of the last occurrence of character `c`, Python `str.rfind` when the
result exists. -/
def rfindIdxChar (c : Char) (l : PyStr) : Option Nat :=
  (findIdxChar c l.reverse).map (fun i => l.length - 1 - i)

def containsChar (c : Char) (l : PyStr) : Bool := l.contains c

def countChar (c : Char) (l : PyStr) : Nat := l.countP (· == c)

/-- Position of the first occurrence of `"\n\n"` in a string, Python's
`content.find("\n\n")` when it is not `-1`. -/
def findNlNl : PyStr → Option Nat
  | '\n' :: '\n' :: _ => some 0
  | _ :: cs => (findNlNl cs).map (· + 1)
  | [] => none

def startsWithS (pat : String) (l : PyStr) : Bool := pat.data.isPrefixOf l

def endsWithChar (c : Char) (l : PyStr) : Bool :=
  match l.getLast? with
  | some x => x == c
  | none => false

/-! ## Header-block parsing

Model of Python's `email.feedparser` header scan with the `compat32` policy:
header lines are consumed until the first blank line (or a non-header,
non-continuation line, which is pushed back and becomes the first body line);
a header's value is the remainder of its first line after the colon, stripped
of leading spaces and tabs, with folded continuation lines joined by the
newline they followed, and trailing CR/LF stripped. -/

def finishHeader (name : PyStr) (vlines : List PyStr) : PyStr × PyStr :=
  match vlines with
  | [] => (name, [])
  | f :: rest => (name, rstripNlCr (joinNl (lstripSpTab f :: rest)))

def flushHeader : Option (PyStr × List PyStr) → List (PyStr × PyStr)
  | none => []
  | some (n, vs) => [finishHeader n vs]

def isContLine (l : PyStr) : Bool :=
  match l with
  | [] => false
  | c :: _ => isSpTab c

def parseHeadersGo (acc : List (PyStr × PyStr)) (cur : Option (PyStr × List PyStr)) :
    List PyStr → List (PyStr × PyStr) × List PyStr
  | [] => (acc ++ flushHeader cur, [])
  | l :: ls =>
    if l = [] then (acc ++ flushHeader cur, ls)
    else if isContLine l then
      match cur with
      | some (n, vs) => parseHeadersGo acc (some (n, vs ++ [l])) ls
      | none => parseHeadersGo acc none ls
    else
      match findIdxChar ':' l with
      | some i =>
        parseHeadersGo (acc ++ flushHeader cur) (some (l.take i, [l.drop (i + 1)])) ls
      | none => (acc ++ flushHeader cur, l :: ls)

/-- Split raw message lines into the parsed header list and the body lines. -/
def parseHeaderLines (lines : List PyStr) : List (PyStr × PyStr) × List PyStr :=
  parseHeadersGo [] none lines

/-- First header value whose name matches case-insensitively; model of
`Message.get(name)` (without default). -/
def hGet (hs : List (PyStr × PyStr)) (name : String) : Option PyStr :=
  (hs.find? (fun p => lowerStr p.1 == lowerStr name.data)).map (·.2)

/-- All header values whose name matches case-insensitively, in order; model
of `Message.get_all(name, [])`. -/
def hGetAll (hs : List (PyStr × PyStr)) (name : String) : List PyStr :=
  (hs.filter (fun p => lowerStr p.1 == lowerStr name.data)).map (·.2)

/-! ## Content-Type handling

Model of `Message.get_content_type`, `Message.get_param` and
`Message.get_content_charset` for the parameter syntax exercised by this
repository (`key=value` parameters separated by `;`, values optionally
surrounded by double quotes; RFC 2231 continuations are not modelled). -/

def unquoteParam (v : PyStr) : PyStr :=
  match v with
  | '"' :: rest =>
    if endsWithChar '"' ('"' :: rest) ∧ rest ≠ [] then rest.dropLast else '"' :: rest
  | _ => v

def contentTypeFromHeaders (hs : List (PyStr × PyStr)) : PyStr :=
  match hGet hs "Content-Type" with
  | none => litS "text/plain"
  | some v =>
    let main := lowerStr (pyStrip (v.takeWhile (· ≠ ';')))
    if countChar '/' main = 1 then main else litS "text/plain"

def paramFromSeg (pname : String) (seg : PyStr) : Option PyStr :=
  match findIdxChar '=' seg with
  | none => none
  | some i =>
    if lowerStr (pyStrip (seg.take i)) = lowerStr pname.data then
      some (unquoteParam (pyStrip (seg.drop (i + 1))))
    else none

def paramFromHeaders (hs : List (PyStr × PyStr)) (pname : String) : Option PyStr :=
  match hGet hs "Content-Type" with
  | none => none
  | some v => ((splitOnChar ';' v).drop 1).findSome? (paramFromSeg pname)

/-- Model of `Message.get_boundary()`: the `boundary` parameter with trailing
whitespace stripped. -/
def boundaryFromHeaders (hs : List (PyStr × PyStr)) : Option PyStr :=
  (paramFromHeaders hs "boundary").map pyRstrip

/-- Model of `Message.get_content_charset()`: the `charset` parameter,
lower-cased; `none` if absent or not pure ASCII. -/
def charsetFromHeaders (hs : List (PyStr × PyStr)) : Option PyStr :=
  match paramFromHeaders hs "charset" with
  | none => none
  | some v => if v.all (fun c => c.toNat < 128) then some (lowerStr v) else none

/-! ## The MIME message tree -/

mutual
inductive Msg where
  | mk : List (PyStr × PyStr) → MsgPayload → Msg
inductive MsgPayload where
  | text : PyStr → MsgPayload
  | bytes : PyBytes → MsgPayload
  | parts : List Msg → MsgPayload
end

def Msg.headers : Msg → List (PyStr × PyStr)
  | .mk hs _ => hs

def Msg.payload : Msg → MsgPayload
  | .mk _ p => p

/-- Model of `Message.get_content_type()`. -/
def Msg.ctype (m : Msg) : PyStr := contentTypeFromHeaders m.headers

/-- Model of `Message.is_multipart()`: the payload is a list of sub-parts. -/
def Msg.isMulti (m : Msg) : Bool :=
  match m.payload with
  | .parts _ => true
  | _ => false

/-- String payload of a part when `get_payload(decode=False)` returns `str`. -/
def Msg.textPayload (m : Msg) : Option PyStr :=
  match m.payload with
  | .text s => some s
  | _ => none

mutual
/-- Pre-order depth-first traversal of a message's part tree; model of
`Message.walk()`. -/
def pyWalk : Msg → List Msg
  | .mk hs (.parts ps) => .mk hs (.parts ps) :: pyWalkList ps
  | m => [m]
def pyWalkList : List Msg → List Msg
  | [] => []
  | p :: ps => pyWalk p ++ pyWalkList ps
end

/-! ## Parsing a raw message into the tree

Model of `email.message_from_string`.  The raw text is split into lines at
`'\n'` (the repository feeds the parser strings read in text mode, and every
input exercised here uses LF line endings).  A `multipart/*` content type with
a boundary parameter makes the body be split at boundary separator lines into
sub-parts, parsed recursively; if the start boundary is never found the body
is kept as a string payload, matching the `StartBoundaryNotFoundDefect`
behaviour of `email.feedparser`. -/

/-- Classify a line against boundary `b`: `some false` for a separator line
`--b`, `some true` for a closing line `--b--` (both allowing trailing blanks),
`none` otherwise. -/
def boundaryKind (b : PyStr) (l : PyStr) : Option Bool :=
  if ('-' :: '-' :: b).isPrefixOf l then
    let rest := l.drop (b.length + 2)
    if rest.all isSpTab then some false
    else if ['-', '-'].isPrefixOf rest ∧ (rest.drop 2).all isSpTab then some true
    else none
  else none

def dropToFirstSep (b : PyStr) : List PyStr → Option (List PyStr)
  | [] => none
  | l :: ls =>
    match boundaryKind b l with
    | some false => some ls
    | _ => dropToFirstSep b ls

def gatherParts (b : PyStr) (cur : List PyStr) : List PyStr → List (List PyStr)
  | [] => [cur.reverse]
  | l :: ls =>
    match boundaryKind b l with
    | some false => cur.reverse :: gatherParts b [] ls
    | some true => [cur.reverse]
    | none => gatherParts b (l :: cur) ls

def parseMsgFuel : Nat → List PyStr → Msg
  | 0, lines =>
    let (hs, body) := parseHeaderLines lines
    .mk hs (.text (joinNl body))
  | fuel + 1, lines =>
    let (hs, body) := parseHeaderLines lines
    if startsWithS "multipart/" (contentTypeFromHeaders hs) then
      match boundaryFromHeaders hs with
      | some b =>
        if b = [] then .mk hs (.text (joinNl body))
        else
          match dropToFirstSep b body with
          | none => .mk hs (.text (joinNl body))
          | some rest =>
            .mk hs (.parts ((gatherParts b [] rest).map (parseMsgFuel fuel)))
      | none => .mk hs (.text (joinNl body))
    else .mk hs (.text (joinNl body))

/-- Model of `email.message_from_string`. -/
def msgFromText (raw : PyStr) : Msg :=
  let lines := splitOnChar '\n' raw
  parseMsgFuel (lines.length + 1) lines

/-! ## The PGP/MIME unwrapper

Model of `unwrap_pgp_mime` from
`src/brett/core/management/commands/review_emails.py`. -/

/-- First `application/octet-stream` part of the walk whose string payload is
non-blank; model of the `decrypted_payload` search loop of `unwrap_pgp_mime`. -/
def findDecrypted (m : Msg) : Option PyStr :=
  (pyWalk m).findSome? (fun p =>
    if p.ctype = litS "application/octet-stream" then
      match p.textPayload with
      | some s => if pyStrip s ≠ [] then some s else none
      | none => none
    else none)

/-- Header name of a line: the text before the first `:`, stripped and
lower-cased; model of `line.split(":")[0].strip().lower()`. -/
def headerNameOf (l : PyStr) : PyStr := lowerStr (pyStrip (l.takeWhile (· ≠ ':')))

def isStrippedHeaderName (n : PyStr) : Bool :=
  n = litS "content-type" || n = litS "content-transfer-encoding" ||
  n = litS "content-disposition"

/-- The header-filtering loop of `unwrap_pgp_mime`, with its
`skip_continuation` flag made an explicit argument. -/
def filterHdrGo (skip : Bool) : List PyStr → List PyStr
  | [] => []
  | l :: ls =>
    if isContLine l then
      if skip then filterHdrGo skip ls else l :: filterHdrGo skip ls
    else
      if containsChar ':' l ∧ isStrippedHeaderName (headerNameOf l) then
        filterHdrGo true ls
      else l :: filterHdrGo false ls

/-- Model of `unwrap_pgp_mime(content)`; the second component is the status
(`none`, `"encrypted"` or `"unwrapped"`). -/
def unwrapPgpMime (content : PyStr) : PyStr × Option String :=
  let msg := msgFromText content
  if msg.ctype ≠ litS "multipart/encrypted" then (content, none)
  else
    match findDecrypted msg with
    | none => (content, some "encrypted")
    | some p =>
      let sp := pyStrip p
      if startsWithS "-----BEGIN PGP" sp then (content, some "encrypted")
      else
        match findNlNl content with
        | none => (content, some "unwrapped")
        | some he =>
          let joined := joinNl (filterHdrGo false (splitOnChar '\n' (content.take he)))
          let result :=
            if startsWithS "Content-Type:" sp || startsWithS "MIME-Version:" sp then
              joined ++ '\n' :: sp
            else
              joined ++ litS "\nContent-Type: text/plain; charset=UTF-8\n\n" ++ sp
          (result, some "unwrapped")

/-! Specification-side restatements used by the claims about the unwrapper. -/

/-- Claim-side condition of C4 step 2: no `application/octet-stream` part of
the message carries a non-blank string payload. -/
def noDecryptedPayload (m : Msg) : Prop :=
  ∀ p ∈ pyWalk m, p.ctype = litS "application/octet-stream" →
    pyStrip ((p.textPayload).getD []) = []

mutual
/-- Claim-side header filter: drop every header line whose name is
Content-Type, Content-Transfer-Encoding or Content-Disposition
(case-insensitive) together with its folded continuation lines; keep all
other lines verbatim in order. -/
def specFilterHdrs : List PyStr → List PyStr
  | [] => []
  | l :: ls =>
    if ¬ isContLine l ∧ containsChar ':' l ∧ isStrippedHeaderName (headerNameOf l) then
      specDropFolded ls
    else l :: specFilterHdrs ls
/-- Drop the folded continuation lines of a just-dropped header, then resume
filtering. -/
def specDropFolded : List PyStr → List PyStr
  | [] => []
  | l :: ls =>
    if isContLine l then specDropFolded ls
    else if containsChar ':' l ∧ isStrippedHeaderName (headerNameOf l) then
      specDropFolded ls
    else l :: specFilterHdrs ls
end

/-- Claim-side reassembly of C5 steps 4–5: filtered headers, then either the
self-describing MIME payload after a newline, or a synthesized text/plain
Content-Type header, a blank line and the payload. -/
def specUnwrapAssemble (hdrBlock : PyStr) (sp : PyStr) : PyStr :=
  let filtered := joinNl (specFilterHdrs (splitOnChar '\n' hdrBlock))
  if startsWithS "Content-Type:" sp || startsWithS "MIME-Version:" sp then
    filtered ++ '\n' :: sp
  else filtered ++ litS "\nContent-Type: text/plain; charset=UTF-8\n\n" ++ sp

/-! ## Attachment stripping

Model of `strip_large_attachments` from `review_emails.py`.  The stripping
loop (repeatedly re-serialising and replacing the largest non-text leaf part)
is abstracted as the parameter `stripLoopModel`: both verified frame
properties about this function hold in every branch that returns before the
loop is entered, for an arbitrary loop behaviour. -/
def stripLargeAttachments (stripLoopModel : Msg → PyStr) (maxSize : Nat)
    (content : PyStr) : PyStr :=
  if content.length ≤ maxSize then content
  else
    let msg := msgFromText content
    if ¬ msg.isMulti then content
    else if msg.ctype = litS "multipart/encrypted" then content
    else stripLoopModel msg

/-! ## Character-set decoding

Model of CPython codec lookup and `bytes.decode(charset, errors="replace")`
for the codecs relevant to this repository: utf-8, latin-1, us-ascii and
windows-1252.  Looking up an unknown codec name raises `LookupError` in
Python regardless of the `errors` argument; the model returns `none` in that
case.  For a known codec, decoding with `errors="replace"` is total:
undecodable byte sequences become U+FFFD. -/

inductive Codec where
  | utf8 | latin1 | ascii | cp1252
  deriving DecidableEq

/-- Codec-name normalisation and alias lookup, model of
`encodings.normalize_encoding` plus the alias table for the four codecs the
model knows.  Any other name is an unknown codec (`none`). -/
def lookupCodec (cs : PyStr) : Option Codec :=
  let n := (lowerStr cs).map (fun c => if c == '-' || c == ' ' then '_' else c)
  if [litS "utf_8", litS "utf8", litS "utf", litS "u8", litS "cp65001"].contains n then
    some .utf8
  else if [litS "latin_1", litS "latin1", litS "latin", litS "l1", litS "iso_8859_1",
           litS "iso8859_1", litS "8859", litS "cp819"].contains n then
    some .latin1
  else if [litS "ascii", litS "us_ascii", litS "646", litS "us"].contains n then
    some .ascii
  else if [litS "cp1252", litS "windows_1252"].contains n then
    some .cp1252
  else none

def replChar : Char := Char.ofNat 0xFFFD

def utf8IsCont (b : Nat) : Bool := 128 ≤ b && b ≤ 191

/-- Worker for UTF-8 decoding, fuelled for structural recursion; the fuel is
always instantiated with the length of the byte string, and every step
consumes at least one byte, so the fuel never runs out. -/
def utf8Go : Nat → PyBytes → PyStr
  | 0, _ => []
  | _, [] => []
  | fuel + 1, b :: rest =>
    if b < 128 then Char.ofNat b :: utf8Go fuel rest
    else if 194 ≤ b && b ≤ 223 then
      match rest with
      | b2 :: rest2 =>
        if utf8IsCont b2 then
          Char.ofNat ((b - 192) * 64 + (b2 - 128)) :: utf8Go fuel rest2
        else replChar :: utf8Go fuel rest
      | [] => [replChar]
    else if 224 ≤ b && b ≤ 239 then
      match rest with
      | b2 :: rest2 =>
        if (if b = 224 then 160 ≤ b2 && b2 ≤ 191
            else if b = 237 then 128 ≤ b2 && b2 ≤ 159
            else utf8IsCont b2) then
          match rest2 with
          | b3 :: rest3 =>
            if utf8IsCont b3 then
              Char.ofNat ((b - 224) * 4096 + (b2 - 128) * 64 + (b3 - 128)) ::
                utf8Go fuel rest3
            else replChar :: utf8Go fuel rest2
          | [] => [replChar]
        else replChar :: utf8Go fuel rest
      | [] => [replChar]
    else if 240 ≤ b && b ≤ 244 then
      match rest with
      | b2 :: rest2 =>
        if (if b = 240 then 144 ≤ b2 && b2 ≤ 191
            else if b = 244 then 128 ≤ b2 && b2 ≤ 143
            else utf8IsCont b2) then
          match rest2 with
          | b3 :: rest3 =>
            if utf8IsCont b3 then
              match rest3 with
              | b4 :: rest4 =>
                if utf8IsCont b4 then
                  Char.ofNat ((b - 240) * 262144 + (b2 - 128) * 4096 +
                    (b3 - 128) * 64 + (b4 - 128)) :: utf8Go fuel rest4
                else replChar :: utf8Go fuel rest3
              | [] => [replChar]
            else replChar :: utf8Go fuel rest2
          | [] => [replChar]
        else replChar :: utf8Go fuel rest
      | [] => [replChar]
    else replChar :: utf8Go fuel rest

/-- UTF-8 decoding with `errors="replace"`: every maximal invalid subpart is
replaced by one U+FFFD, per the W3C/Unicode substitution policy CPython
implements. -/
def decodeUtf8Replace (bs : PyBytes) : PyStr := utf8Go bs.length bs

/-- The 32 windows-1252 positions 0x80–0x9F (five of them are undefined and
decode to U+FFFD under `errors="replace"`); all other bytes coincide with
latin-1. -/
def cp1252Char (b : Nat) : Char :=
  if b = 128 then Char.ofNat 0x20AC
  else if b = 130 then Char.ofNat 0x201A
  else if b = 131 then Char.ofNat 0x0192
  else if b = 132 then Char.ofNat 0x201E
  else if b = 133 then Char.ofNat 0x2026
  else if b = 134 then Char.ofNat 0x2020
  else if b = 135 then Char.ofNat 0x2021
  else if b = 136 then Char.ofNat 0x02C6
  else if b = 137 then Char.ofNat 0x2030
  else if b = 138 then Char.ofNat 0x0160
  else if b = 139 then Char.ofNat 0x2039
  else if b = 140 then Char.ofNat 0x0152
  else if b = 142 then Char.ofNat 0x017D
  else if b = 145 then Char.ofNat 0x2018
  else if b = 146 then Char.ofNat 0x2019
  else if b = 147 then Char.ofNat 0x201C
  else if b = 148 then Char.ofNat 0x201D
  else if b = 149 then Char.ofNat 0x2022
  else if b = 150 then Char.ofNat 0x2013
  else if b = 151 then Char.ofNat 0x2014
  else if b = 152 then Char.ofNat 0x02DC
  else if b = 153 then Char.ofNat 0x2122
  else if b = 154 then Char.ofNat 0x0161
  else if b = 155 then Char.ofNat 0x203A
  else if b = 156 then Char.ofNat 0x0153
  else if b = 158 then Char.ofNat 0x017E
  else if b = 129 || b = 141 || b = 143 || b = 144 || b = 157 then replChar
  else Char.ofNat b

/-- Model of `bytes.decode(charset, errors="replace")`: `none` models the
`LookupError` raised for an unknown codec; for a known codec decoding is
total. -/
def decodeBytes (cs : PyStr) (bs : PyBytes) : Option PyStr :=
  (lookupCodec cs).map (fun codec =>
    match codec with
    | .utf8 => decodeUtf8Replace bs
    | .latin1 => bs.map Char.ofNat
    | .ascii => bs.map (fun b => if b < 128 then Char.ofNat b else replChar)
    | .cp1252 => bs.map cp1252Char)

/-! ## Transfer-encoding decoding -/

def isHexB (b : Nat) : Bool :=
  (48 ≤ b && b ≤ 57) || (65 ≤ b && b ≤ 70) || (97 ≤ b && b ≤ 102)

def hexValB (b : Nat) : Nat :=
  if b ≤ 57 then b - 48 else if b ≤ 70 then b - 55 else b - 87

/-- Worker for quoted-printable decoding (fuelled; the fuel is the input
length and each step consumes at least one byte).  Model of
`quopri.decodestring` / `binascii.a2b_qp`: `=XX` hex escapes are decoded,
`=` before a line break is a soft break, any other `=` is kept literally. -/
def qpGo : Nat → PyBytes → PyBytes
  | 0, _ => []
  | _, [] => []
  | fuel + 1, 61 :: rest =>
    (match rest with
     | a :: b :: rest2 =>
       if isHexB a && isHexB b then (hexValB a * 16 + hexValB b) :: qpGo fuel rest2
       else if a = 10 then qpGo fuel (b :: rest2)
       else if a = 13 && b = 10 then qpGo fuel rest2
       else if a = 13 then qpGo fuel (b :: rest2)
       else 61 :: qpGo fuel rest
     | [a] => if a = 10 || a = 13 then [] else [61, a]
     | [] => [61])
  | fuel + 1, b :: rest => b :: qpGo fuel rest

def qpDecode (bs : PyBytes) : PyBytes := qpGo bs.length bs

def b64ValChar (c : Char) : Option Nat :=
  if 'A' ≤ c ∧ c ≤ 'Z' then some (c.toNat - 65)
  else if 'a' ≤ c ∧ c ≤ 'z' then some (c.toNat - 71)
  else if '0' ≤ c ∧ c ≤ '9' then some (c.toNat + 4)
  else if c = '+' then some 62
  else if c = '/' then some 63
  else none

def b64ValByte (b : Nat) : Option Nat :=
  if 65 ≤ b && b ≤ 90 then some (b - 65)
  else if 97 ≤ b && b ≤ 122 then some (b - 71)
  else if 48 ≤ b && b ≤ 57 then some (b + 4)
  else if b = 43 then some 62
  else if b = 47 then some 63
  else none

/-- Reassemble decoded base64 six-bit groups into bytes. -/
def b64Groups : List Nat → PyBytes
  | a :: b :: c :: d :: rest =>
    (a * 4 + b / 16) :: ((b % 16) * 16 + c / 4) :: ((c % 4) * 64 + d) :: b64Groups rest
  | [a, b, c] => [a * 4 + b / 16, (b % 16) * 16 + c / 4]
  | [a, b] => [a * 4 + b / 16]
  | [_] => []
  | [] => []

/-- Model of the lenient base64 decoding of `email.utils`/`decode_b` used by
`Message.get_payload(decode=True)`: non-alphabet bytes are discarded; when the
remaining length is invalid (≡ 1 mod 4, `binascii.Error` in all three
attempts) the original input is returned unchanged. -/
def decodeBLenient (bs : PyBytes) : PyBytes :=
  let vals := bs.filterMap b64ValByte
  if vals.length % 4 == 1 then bs else b64Groups vals

/-- Model of the base64 decoding used by `email.header.decode_header` for
`=?..?B?..?=` words; `none` models the `HeaderParseError` raised when the
data length is invalid even after padding. -/
def b64HeaderDecode (s : PyStr) : Option PyBytes :=
  let vals := s.filterMap b64ValChar
  if vals.length % 4 == 1 then none else some (b64Groups vals)

def hexDigitLower (n : Nat) : Char :=
  if n < 10 then Char.ofNat (48 + n) else Char.ofNat (87 + n)

/-- Model of one character of `str.encode("raw-unicode-escape")`: characters
below U+0100 map to the same-numbered byte, others to a `\uXXXX`/`\UXXXXXXXX`
escape sequence. -/
def rawUnicodeEscapeChar (c : Char) : PyBytes :=
  let n := c.toNat
  if n < 256 then [n]
  else if n < 65536 then
    [92, 117, (hexDigitLower (n / 4096 % 16)).toNat, (hexDigitLower (n / 256 % 16)).toNat,
     (hexDigitLower (n / 16 % 16)).toNat, (hexDigitLower (n % 16)).toNat]
  else
    [92, 85] ++ ((List.range 8).reverse.map (fun i => (hexDigitLower (n / 16 ^ i % 16)).toNat))

/-- Python's `surrogateescape` byte-preserving characters U+DC80–U+DCFF (as
produced by `message_from_bytes`) are not valid Lean characters; the model
shifts them into the private-use block U+E080–U+E0FF. -/
def isModelSurrogate (c : Char) : Bool := 57472 ≤ c.toNat && c.toNat < 57600

/-- Model of the string-to-bytes step of `Message.get_payload(decode=True)`:
surrogate-escaped strings are encoded back to their original bytes, pure
ASCII strings with `ascii`, and anything else with `raw-unicode-escape`. -/
def encodeForDecodeTrue (s : PyStr) : PyBytes :=
  if s.any isModelSurrogate then
    s.map (fun c =>
      if c.toNat < 128 then c.toNat
      else if isModelSurrogate c then c.toNat - 57344
      else 63)
  else if s.all (fun c => c.toNat < 128) then s.map (·.toNat)
  else List.flatten (s.map rawUnicodeEscapeChar)

def cteRawLower (m : Msg) : PyStr :=
  lowerStr ((hGet m.headers "Content-Transfer-Encoding").getD [])

def cteStripLower (m : Msg) : PyStr :=
  lowerStr (pyStrip ((hGet m.headers "Content-Transfer-Encoding").getD []))

/-- Transfer-encoding resolution inside `get_payload(decode=True)` (which
lower-cases, but does not strip, its own view of the CTE header). -/
def transferDecode (cte : PyStr) (bs : PyBytes) : PyBytes :=
  if cte = litS "quoted-printable" then qpDecode bs
  else if cte = litS "base64" then
    decodeBLenient (bs.filter (fun b => b ≠ 10 ∧ b ≠ 13))
  else bs

/-- Model of `Message.get_payload(decode=True)`: `none` for a multipart
message (Python returns `None`), otherwise the transfer-decoded bytes. -/
def getPayloadDecodeTrue (m : Msg) : Option PyBytes :=
  match m.payload with
  | .parts _ => none
  | .bytes bs => some (transferDecode (cteRawLower m) bs)
  | .text s => some (transferDecode (cteRawLower m) (encodeForDecodeTrue s))

/-- Model of `part.get_content_charset() or "utf-8"` (an absent or empty
charset falls back to utf-8). -/
def charsetOrUtf8 (m : Msg) : PyStr :=
  match charsetFromHeaders m.headers with
  | none => litS "utf-8"
  | some c => if c = [] then litS "utf-8" else c

/-- Model of `_decode_payload` from `email_parser.py`.  `none` models a
propagated exception (in Python: `LookupError` from decoding with an unknown
declared charset). -/
def decodePayloadM (m : Msg) : Option PyStr :=
  match (if cteStripLower m = litS "quoted-printable" ∨ cteStripLower m = litS "base64" then
           getPayloadDecodeTrue m
         else none) with
  | some bs => decodeBytes (charsetOrUtf8 m) bs
  | none =>
    match m.payload with
    | .text s => some s
    | .bytes bs => decodeBytes (charsetOrUtf8 m) bs
    | .parts _ => some []

/-! ## RFC 2047 header decoding

Model of `email.header.decode_header` and of `_decode_rfc2047` from
`email_parser.py`. -/

/-- Model of Python `str.splitlines()` for the line breaks `\r\n`, `\r` and
`\n` (the only ones occurring in mail headers). -/
def splitLinesRaw : PyStr → List PyStr
  | [] => [[]]
  | '\r' :: '\n' :: rest => [] :: splitLinesRaw rest
  | '\r' :: rest => [] :: splitLinesRaw rest
  | '\n' :: rest => [] :: splitLinesRaw rest
  | c :: rest =>
    match splitLinesRaw rest with
    | [] => [[c]]
    | h :: t => (c :: h) :: t

def pySplitLines (s : PyStr) : List PyStr :=
  if s = [] then []
  else
    let r := splitLinesRaw s
    if endsWithChar '\n' s || endsWithChar '\r' s then r.dropLast else r

/-- Encoded-word tokens of a header line. -/
inductive HTok where
  | unenc : PyStr → HTok
  | enc : PyStr → Char → PyStr → HTok
  deriving DecidableEq

/-- Scan for the end `?=` of an encoded word's payload; the payload cannot
span a line break (the `.` of the `ecre` regex does not match a newline). -/
def splitAtQeq : PyStr → Option (PyStr × PyStr)
  | [] => none
  | '?' :: '=' :: rest => some ([], rest)
  | '\n' :: _ => none
  | c :: rest => (splitAtQeq rest).map (fun p => (c :: p.1, p.2))

/-- Try to read one RFC 2047 encoded word `=?charset?E?text?=` at the start
of the string; model of a match of the `ecre` regex of `email.header`. -/
def tryEncWord : PyStr → Option (PyStr × Char × PyStr × PyStr)
  | '=' :: '?' :: rest =>
    let cs := rest.takeWhile (· ≠ '?')
    (match rest.drop cs.length with
     | '?' :: e :: '?' :: rest2 =>
       if e == 'q' || e == 'Q' || e == 'b' || e == 'B' then
         (splitAtQeq rest2).map (fun p => (cs, e, p.1, p.2))
       else none
     | _ => none)
  | _ => none

/-- Whether the header contains any encoded word (`ecre.search`). -/
def ecreAny : PyStr → Bool
  | [] => false
  | c :: rest => (tryEncWord (c :: rest)).isSome || ecreAny rest

/-- Worker splitting one line into unencoded runs and encoded words
(fuelled; fuel is the line length plus one and every step consumes at least
one character). -/
def scanLineGo : Nat → PyStr → PyStr → List HTok
  | 0, acc, l => if (acc.reverse ++ l) = [] then [] else [.unenc (acc.reverse ++ l)]
  | fuel + 1, acc, l =>
    match l with
    | [] => if acc = [] then [] else [.unenc acc.reverse]
    | c :: rest =>
      match tryEncWord (c :: rest) with
      | some (cs, e, t, r) =>
        (if acc = [] then [] else [HTok.unenc acc.reverse]) ++
          HTok.enc cs e t :: scanLineGo fuel [] r
      | none => scanLineGo fuel (c :: acc) rest

def scanLine (l : PyStr) : List HTok := scanLineGo (l.length + 1) [] l

/-- Per-line token list with the first unencoded chunk lstripped and empty
unencoded chunks dropped, as in `decode_header`. -/
def lineToks (l : PyStr) : List HTok :=
  match scanLine l with
  | .unenc s :: rest =>
    if pyLstrip s = [] then rest else .unenc (pyLstrip s) :: rest
  | r => r

def isWsTok : HTok → Bool
  | .unenc s => s ≠ [] && s.all isPySpace
  | _ => false

def isEncTok : HTok → Bool
  | .enc _ _ _ => true
  | _ => false

/-- Worker for the `droplist` pass (fuelled; the fuel is the token count and
every step consumes at least one token). -/
def dropWsBetweenGo : Nat → List HTok → List HTok
  | 0, l => l
  | fuel + 1, l =>
    match l with
    | e1 :: u :: e2 :: rest =>
      if isEncTok e1 && isWsTok u && isEncTok e2 then
        e1 :: dropWsBetweenGo fuel (e2 :: rest)
      else e1 :: dropWsBetweenGo fuel (u :: e2 :: rest)
    | _ => l

/-- Drop purely-whitespace unencoded chunks standing between two encoded
words (the `droplist` pass of `decode_header`). -/
def dropWsBetween (l : List HTok) : List HTok := dropWsBetweenGo l.length l

/-- Model of `email.quoprimime.header_decode` composed with the
str-to-bytes conversion of `decode_header` (`raw-unicode-escape`):
underscores become spaces, `=XX` escapes become the named byte. -/
def qHeaderGo : Nat → PyStr → PyBytes
  | 0, _ => []
  | _, [] => []
  | fuel + 1, '_' :: r => 32 :: qHeaderGo fuel r
  | fuel + 1, '=' :: a :: b :: r =>
    if isHexB a.toNat && isHexB b.toNat then
      (hexValB a.toNat * 16 + hexValB b.toNat) :: qHeaderGo fuel r
    else rawUnicodeEscapeChar '=' ++ qHeaderGo fuel (a :: b :: r)
  | fuel + 1, c :: r => rawUnicodeEscapeChar c ++ qHeaderGo fuel r

def qHeaderDecodeBytes (s : PyStr) : PyBytes := qHeaderGo (s.length + 1) s

/-- A decoded word of `decode_header`: either a plain string (only on the
no-encoded-words early path) or bytes, with an optional charset. -/
abbrev HWord := (PyStr ⊕ PyBytes) × Option PyStr

def decodeTok : HTok → Option HWord
  | .unenc s => some (Sum.inl s, none)
  | .enc cs e txt =>
    if e == 'q' || e == 'Q' then
      some (Sum.inr (qHeaderDecodeBytes txt), some (lowerStr cs))
    else
      (b64HeaderDecode txt).map (fun bs => (Sum.inr bs, some (lowerStr cs)))

def hwordBytes (w : PyStr ⊕ PyBytes) : PyBytes :=
  match w with
  | .inl s => List.flatten (s.map rawUnicodeEscapeChar)
  | .inr bs => bs

/-- Collapse consecutive same-charset words into byte runs (the final loop of
`decode_header`; all words become bytes there, strings are converted with
`raw-unicode-escape`). -/
def collapseGo : Option (PyBytes × Option PyStr) → List HWord → List HWord
  | none, [] => []
  | some (w, cs), [] => [(Sum.inr w, cs)]
  | cur, (tok, cs) :: rest =>
    let bs := hwordBytes tok
    match cur with
    | none => collapseGo (some (bs, cs)) rest
    | some (w, lcs) =>
      if cs = lcs then collapseGo (some (w ++ bs, cs)) rest
      else (Sum.inr w, lcs) :: collapseGo (some (bs, cs)) rest

/-- Model of `email.header.decode_header`; `none` models the
`HeaderParseError` raised on invalid base64 in an encoded word. -/
def decodeHeaderModel (h : PyStr) : Option (List HWord) :=
  if ¬ ecreAny h then some [(Sum.inl h, none)]
  else
    let toks := dropWsBetween ((pySplitLines h).flatMap lineToks)
    (toks.mapM decodeTok).map (collapseGo none)

/-- Model of `_decode_rfc2047` from `email_parser.py`: decode every word,
bytes under their declared charset (or utf-8 when absent or empty) with
replacement, and concatenate.  `none` models a propagated exception
(`HeaderParseError` or `LookupError` for an unknown charset). -/
def decodeRfc2047 (v : PyStr) : Option PyStr := do
  let ws ← decodeHeaderModel v
  let ps ← ws.mapM (fun w =>
    match w.1 with
    | .inl s => some s
    | .inr bs =>
      decodeBytes
        (match w.2 with
         | none => litS "utf-8"
         | some c => if c = [] then litS "utf-8" else c) bs)
  return List.flatten ps

/-! ## Placeholder-subject detection

Model of `_is_placeholder_subject` from `email_parser.py`: the stripped
subject is empty or matches the regex `^(Re:\s*)*\.{2,}$`. -/

/-- Whether the whole remainder consists of at least two dots (`\.{2,}$`). -/
def dotsTail (l : PyStr) : Bool := 2 ≤ l.length && l.all (· == '.')

/-- Strip leading `Re:` units, each with its following whitespace run
(greedy consumption is equivalent to the anchored regex's backtracking:
every unit and the final dots start with a non-whitespace character, and a
string beginning with `Re:` can never be the dots).  Fuelled for structural
recursion; the fuel is the string length and every unit consumes at least
three characters. -/
def stripReUnits : Nat → PyStr → PyStr
  | 0, l => l
  | fuel + 1, l =>
    match l with
    | 'R' :: 'e' :: ':' :: t => stripReUnits fuel (t.dropWhile isPySpace)
    | _ => l

/-- Executable matcher for the regex `^(Re:\s*)*\.{2,}$`. -/
def matchReDots (l : PyStr) : Bool := dotsTail (stripReUnits l.length l)

/-- Model of `_is_placeholder_subject`. -/
def isPlaceholderSubject (s : PyStr) : Bool :=
  let st := pyStrip s
  st = [] || matchReDots st

/-- Claim-side placeholder pattern, as the claim words it: zero or more
repetitions of `"Re: "` (case-sensitive, optional trailing space) followed by
two or more literal dots. -/
inductive ClaimReDots : PyStr → Prop where
  | dots (l : PyStr) : 2 ≤ l.length → (∀ c ∈ l, c = '.') → ClaimReDots l
  | rep0 (rest : PyStr) : ClaimReDots rest → ClaimReDots ('R' :: 'e' :: ':' :: rest)
  | rep1 (rest : PyStr) : ClaimReDots rest → ClaimReDots ('R' :: 'e' :: ':' :: ' ' :: rest)

/-- Amended placeholder pattern: zero or more repetitions of `Re:`, each
optionally followed by a run of whitespace, then two or more literal dots. -/
inductive SpecReDots : PyStr → Prop where
  | dots (l : PyStr) : 2 ≤ l.length → (∀ c ∈ l, c = '.') → SpecReDots l
  | rep (ws rest : PyStr) : (∀ c ∈ ws, isPySpace c = true) → SpecReDots rest →
      SpecReDots ('R' :: 'e' :: ':' :: (ws ++ rest))

/-! ## Protected-headers subject recovery

Model of `_extract_protected_subject` from `email_parser.py`. -/

/-- Try to match the regex `protected-headers="?v\d+"?` at the start of the
string, returning the text after the match end. -/
def tryMarker (l : PyStr) : Option PyStr :=
  if (litS "protected-headers=").isPrefixOf l then
    let r0 := l.drop 18
    let r1 := match r0 with
              | '"' :: t => t
              | _ => r0
    match r1 with
    | 'v' :: t =>
      let ds := t.takeWhile Char.isDigit
      if ds = [] then none
      else
        let r2 := t.drop ds.length
        some (match r2 with
              | '"' :: t2 => t2
              | _ => r2)
    | _ => none
  else none

/-- Model of `re.search`: first position at which the marker pattern
matches, returning the remainder after the match. -/
def findMarkerRest : PyStr → Option PyStr
  | [] => none
  | c :: rest =>
    match tryMarker (c :: rest) with
    | some r => some r
    | none => findMarkerRest rest

/-- Accumulate folded continuation lines onto the recovered subject value
(`subject_value += " " + cont_line.strip()` while the next line starts with
a space or tab). -/
def contAccum (v : PyStr) : List PyStr → PyStr
  | [] => v
  | l :: ls =>
    match l with
    | [] => v
    | c :: _ => if isSpTab c then contAccum (v ++ ' ' :: pyStrip l) ls else v

/-- Scan the header-like block after the marker line for a `Subject:` line;
stops at the first blank line.  `some none` means no subject recovered,
`none` models a propagated exception from header decoding. -/
def scanProtLines : List PyStr → Option (Option PyStr)
  | [] => some none
  | l :: ls =>
    let st := pyStrip l
    if st = [] then some none
    else if (litS "Subject:").isPrefixOf st then
      (decodeRfc2047 (contAccum (pyStrip (st.drop 8)) ls)).map some
    else scanProtLines ls

/-- Model of `_extract_protected_subject(raw_message)`: `some (some v)` when
a subject is recovered, `some none` when nothing is found, `none` for a
propagated decoding exception. -/
def extractProtectedSubject (raw : PyStr) : Option (Option PyStr) :=
  match findMarkerRest raw with
  | none => some none
  | some rest =>
    match findIdxChar '\n' rest with
    | none => some none
    | some i => scanProtLines (splitOnChar '\n' (rest.drop (i + 1)))

/-! ## Date parsing

Model of `email.utils.parsedate_to_datetime` / `parsedate` and of the date
logic of `parse_raw_email` (primary parse; on failure a fallback via
`parsedate` that assumes UTC; on failure of both, no date). -/

structure PyDateTime where
  year : Int
  month : Int
  day : Int
  hour : Int
  minute : Int
  second : Int
  tzOffset : Option Int
  deriving DecidableEq, Repr

def dayNamesPy : List PyStr :=
  [litS "mon", litS "tue", litS "wed", litS "thu", litS "fri", litS "sat", litS "sun"]

def monthNamesPy : List PyStr :=
  [litS "jan", litS "feb", litS "mar", litS "apr", litS "may", litS "jun",
   litS "jul", litS "aug", litS "sep", litS "oct", litS "nov", litS "dec",
   litS "january", litS "february", litS "march", litS "april", litS "may",
   litS "june", litS "july", litS "august", litS "september", litS "october",
   litS "november", litS "december"]

def tzNamesPy : List (PyStr × Int) :=
  [(litS "UT", 0), (litS "UTC", 0), (litS "GMT", 0), (litS "Z", 0),
   (litS "AST", -400), (litS "ADT", -300), (litS "EST", -500), (litS "EDT", -400),
   (litS "CST", -600), (litS "CDT", -500), (litS "MST", -700), (litS "MDT", -600),
   (litS "PST", -800), (litS "PDT", -700)]

def upperStr (l : PyStr) : PyStr := l.map Char.toUpper

def parseNatAll (l : PyStr) : Option Nat :=
  if l ≠ [] ∧ l.all Char.isDigit then
    some (l.foldl (fun acc c => acc * 10 + (c.toNat - 48)) 0)
  else none

/-- Model of Python `int(str)` for an optional sign followed by digits. -/
def parseIntPy (l : PyStr) : Option Int :=
  match l with
  | '+' :: r => (parseNatAll r).map Int.ofNat
  | '-' :: r => (parseNatAll r).map (fun n => -(n : Int))
  | _ => (parseNatAll l).map Int.ofNat

/-- Index of the first list element equal to `x`. -/
def idxOfPyStr (x : PyStr) : List PyStr → Option Nat
  | [] => none
  | y :: ys => if y = x then some 0 else (idxOfPyStr x ys).map (· + 1)

/-- Timezone token resolution of `_parsedate_tz`: known zone names map to an
HHMM-style number, otherwise `int(tz)` is attempted; `-0000` means no zone;
the HHMM number is then converted to seconds. -/
def tzTokenToOffset (tz : PyStr) : Option Int :=
  let tzU := upperStr tz
  let raw : Option Int :=
    match (tzNamesPy.find? (fun p => p.1 = tzU)).map (·.2) with
    | some v => some v
    | none =>
      match parseIntPy tzU with
      | some v =>
        if v = 0 ∧ (match tzU with | '-' :: _ => true | _ => false) = true then none
        else some v
      | none => none
  match raw with
  | none => none
  | some v =>
    if v = 0 then some 0
    else
      let a := v.natAbs
      some ((if v < 0 then (-1 : Int) else 1) * ((a / 100) * 3600 + (a % 100) * 60))

/-- Six-component date tuple (year, month, day, hour, minute, second). -/
structure DT6 where
  y : Int
  mo : Int
  d : Int
  h : Int
  mi : Int
  s : Int
  deriving DecidableEq, Repr

/-- Model of `email._parseaddr._parsedate_tz` for the token shapes occurring
in mail (`[weekday,] day month year time [zone]`, with the swapped day/month
and two-digit-year adjustments of the original). -/
def pyParsedateTz (str : PyStr) : Option (DT6 × Option Int) :=
  match splitWs str with
  | [] => none
  | t0 :: rest =>
    let data :=
      if endsWithChar ',' t0 || dayNamesPy.contains (lowerStr t0) then rest
      else
        match rfindIdxChar ',' t0 with
        | some i => (t0.drop (i + 1)) :: rest
        | none => t0 :: rest
    let data :=
      if data.length = 4 then
        match data with
        | [d0, d1, d2, d3] =>
          let i :=
            match findIdxChar '+' d3 with
            | some j => some j
            | none => findIdxChar '-' d3
          (match i with
           | some j => if 0 < j then [d0, d1, d2, d3.take j, d3.drop j]
                       else [d0, d1, d2, d3, []]
           | none => [d0, d1, d2, d3, []])
        | _ => data
      else data
    if data.length < 5 then none
    else
      match data with
      | dd0 :: mm0 :: yy0 :: tm0 :: tz0 :: _ =>
        let mmL := lowerStr mm0
        let pair := if monthNamesPy.contains mmL then some (dd0, mmL)
                    else if monthNamesPy.contains (lowerStr dd0) then
                      some (mm0, lowerStr dd0)
                    else none
        match pair with
        | none => none
        | some (dd1, mmName) =>
          match idxOfPyStr mmName monthNamesPy with
          | none => none
          | some mIdx0 =>
            let mo : Int := (if mIdx0 + 1 > 12 then mIdx0 + 1 - 12 else mIdx0 + 1 : Nat)
            let (yy1, tz1) :=
              match yy0 with
              | c :: _ => if ¬ c.isDigit then (tz0, yy0) else (yy0, tz0)
              | [] => (yy0, tz0)
            let tparts := splitOnChar ':' tm0
            let hms : Option (PyStr × PyStr × PyStr) :=
              match tparts with
              | [a, b] => some (a, b, litS "0")
              | [a, b, c] => some (a, b, c)
              | _ => none
            match hms with
            | none => none
            | some (th, tmn, tsc) =>
              match parseIntPy yy1, parseIntPy dd1, parseIntPy th,
                    parseIntPy tmn, parseIntPy tsc with
              | some yy, some dd, some hh, some mn, some ss =>
                let yy := if yy < 100 then (if yy > 68 then yy + 1900 else yy + 2000)
                          else yy
                some (⟨yy, mo, dd, hh, mn, ss⟩, tzTokenToOffset tz1)
              | _, _, _, _, _ => none
      | _ => none

def isLeapYear (y : Int) : Bool := y % 4 = 0 ∧ (y % 100 ≠ 0 ∨ y % 400 = 0)

def daysInMonth (y m : Int) : Int :=
  if m = 2 then (if isLeapYear y then 29 else 28)
  else if m = 4 ∨ m = 6 ∨ m = 9 ∨ m = 11 then 30
  else 31

/-- Validity of the tuple under the `datetime.datetime` constructor. -/
def dtValid (t : DT6) : Bool :=
  1 ≤ t.y ∧ t.y ≤ 9999 ∧ 1 ≤ t.mo ∧ t.mo ≤ 12 ∧ 1 ≤ t.d ∧ t.d ≤ daysInMonth t.y t.mo ∧
  0 ≤ t.h ∧ t.h ≤ 23 ∧ 0 ≤ t.mi ∧ t.mi ≤ 59 ∧ 0 ≤ t.s ∧ t.s ≤ 59

/-- `datetime.timezone` accepts offsets strictly between −24 h and +24 h. -/
def tzRangeOk : Option Int → Bool
  | none => true
  | some o => -86400 < o ∧ o < 86400

def dtOfTuple (t : DT6) (tz : Option Int) : PyDateTime :=
  ⟨t.y, t.mo, t.d, t.h, t.mi, t.s, tz⟩

/-- Model of `email.utils.parsedate_to_datetime`: `none` models a raised
`ValueError`/`TypeError` (unparseable string, invalid tuple, or out-of-range
timezone).  A parse with no recognised zone yields a naive timestamp
(`tzOffset = none`). -/
def parsedateToDatetimeM (s : PyStr) : Option PyDateTime :=
  match pyParsedateTz s with
  | none => none
  | some (t, tzo) =>
    if dtValid t ∧ tzRangeOk tzo then some (dtOfTuple t tzo) else none

/-- Model of the fallback branch of `parse_raw_email`: `parsedate` plus
`datetime(*tuple[:6])`, made timezone-aware by assuming UTC. -/
def dateFallbackM (s : PyStr) : Option PyDateTime :=
  match pyParsedateTz s with
  | some (t, _) => if dtValid t then some (dtOfTuple t (some 0)) else none
  | none => none

/-- The whole date logic of `parse_raw_email` (never raises). -/
def dateModel (ds : Option PyStr) : Option PyDateTime :=
  match ds with
  | none => none
  | some s =>
    if s = [] then none
    else
      match parsedateToDatetimeM s with
      | some dt => some dt
      | none => dateFallbackM s

/-! ## Top-level message parsing

Model of `parse_raw_email` from `email_parser.py` and of its helpers
`_extract_body_from_pgp_payload` and `email.utils.parseaddr` (the latter
simplified to the display-name/angle-bracket split, which is all this
repository relies on). -/

/-- Simplified model of `email.utils.parseaddr`: `(display_name, address)`.
Angle brackets delimit the address; the display name is the stripped,
unquoted text before them. -/
def parseaddrM (v : PyStr) : PyStr × PyStr :=
  match findIdxChar '<' v with
  | some i =>
    let addr := (v.drop (i + 1)).takeWhile (· ≠ '>')
    let name := pyStrip (v.take i)
    let name :=
      match name with
      | '"' :: t => if endsWithChar '"' name ∧ t ≠ [] then t.dropLast else name
      | _ => name
    (name, addr)
  | none => ([], pyStrip v)

/-- Python `max(subjects, key=len)`: the first subject of maximal length. -/
def maxByLen (h : PyStr) (t : List PyStr) : PyStr :=
  t.foldl (fun acc x => if x.length > acc.length then x else acc) h

/-- Model of `email.message_from_bytes`: the bytes are decoded with
ascii/surrogateescape before parsing; the lone surrogates are shifted into
the private-use block (see `isModelSurrogate`). -/
def msgFromBytes (bs : PyBytes) : Msg :=
  msgFromText (bs.map (fun b =>
    if b % 256 < 128 then Char.ofNat (b % 256) else Char.ofNat (57344 + b % 256)))

/-- The `text/plain` search over an inner decrypted message: first non-blank
decodable body.  `some (some b)` found, `some none` scanned all without
result, `none` models an exception from `_decode_payload` (which aborts the
whole inner loop, caught by `except Exception: pass`). -/
def innerPlainScan : List Msg → Option (Option PyStr)
  | [] => some none
  | p :: ps =>
    if p.ctype = litS "text/plain" then
      match decodePayloadM p with
      | none => none
      | some ib => if pyStrip ib ≠ [] then some (some ib) else innerPlainScan ps
    else innerPlainScan ps

/-- String-payload path of the octet-stream body search: parse the part's
non-blank string payload as a message and scan for a non-blank decodable
`text/plain` body (any exception falls through to the bytes path). -/
def octetStrPath (p : Msg) : Option PyStr :=
  match p.textPayload with
  | some s =>
    if pyStrip s ≠ [] then
      match innerPlainScan (pyWalk (msgFromText s)) with
      | some (some ib) => some ib
      | _ => none
    else none
  | none => none

/-- Bytes path of the octet-stream body search: parse the transfer-decoded
bytes as a message and scan the same way. -/
def octetBytesPath (p : Msg) : Option PyStr :=
  match getPayloadDecodeTrue p with
  | some bs =>
    if bs ≠ [] then
      match innerPlainScan (pyWalk (msgFromBytes bs)) with
      | some (some ib) => some ib
      | _ => none
    else none
  | none => none

/-- Body search within one `application/octet-stream` part: the string
payload is parsed as a message first; failing that, the transfer-decoded
bytes are parsed. -/
def octetPartBody (p : Msg) : Option PyStr :=
  match octetStrPath p with
  | some ib => some ib
  | none => octetBytesPath p

def octetScan : List Msg → Option PyStr
  | [] => none
  | p :: ps =>
    if p.ctype = litS "application/octet-stream" then
      match octetPartBody p with
      | some b => some b
      | none => octetScan ps
    else octetScan ps

/-- Model of `_extract_body_from_pgp_payload`. -/
def extractBodyFromPgpPayload (m : Msg) : Option PyStr :=
  octetScan (pyWalk m)

/-- First `text/plain` part of the walk whose `_decode_payload` succeeds
(exceptions skip to the next part); the loop breaks on the first success
even when the decoded body is empty. -/
def firstDecodedPlain : List Msg → Option PyStr
  | [] => none
  | p :: ps =>
    if p.ctype = litS "text/plain" then
      match decodePayloadM p with
      | some b => some b
      | none => firstDecodedPlain ps
    else firstDecodedPlain ps

/-- The body-extraction phase of `parse_raw_email` (never raises: the
non-multipart decode failure falls back to the raw string payload). -/
def extractBody (m : Msg) : PyStr :=
  if m.isMulti then
    if (firstDecodedPlain (pyWalk m)).getD [] = [] ∧
        m.ctype = litS "multipart/encrypted" then
      (extractBodyFromPgpPayload m).getD []
    else (firstDecodedPlain (pyWalk m)).getD []
  else
    match decodePayloadM m with
    | some b => b
    | none =>
      match m.payload with
      | .text s => s
      | _ => []

/-- Values of the dictionary returned by `parse_raw_email`. -/
inductive DVal where
  | vs : PyStr → DVal
  | vd : Option PyDateTime → DVal
  deriving DecidableEq, Repr

def dGet (d : List (String × DVal)) (k : String) : Option DVal :=
  (d.find? (fun p => p.1 = k)).map (·.2)

/-- Display name of the From header, before decoding. -/
def fromNameRaw (raw : PyStr) : PyStr :=
  (parseaddrM ((hGet (msgFromText raw).headers "From").getD [])).1

def fromAddrOf (raw : PyStr) : PyStr :=
  (parseaddrM ((hGet (msgFromText raw).headers "From").getD [])).2

/-- The Subject value selected by the duplicate-resolution step (`max` by
length when several are present), before decoding; `none` when the message
has no Subject header. -/
def selectedSubject (raw : PyStr) : Option PyStr :=
  match hGetAll (msgFromText raw).headers "Subject" with
  | [] => none
  | s :: rest => some (if rest = [] then s else maxByLen s rest)

/-- The decoded From display name (`_decode_rfc2047(from_name) if from_name
else from_name`); `none` models a propagated decoding exception. -/
def decodedFromName (raw : PyStr) : Option PyStr :=
  if fromNameRaw raw ≠ [] then decodeRfc2047 (fromNameRaw raw)
  else some (fromNameRaw raw)

/-- The decoded selected subject (empty string when the message has no
Subject header); `none` models a propagated decoding exception. -/
def decodedSubject0 (raw : PyStr) : Option PyStr :=
  match selectedSubject raw with
  | none => some []
  | some s => decodeRfc2047 s

/-- The placeholder-resolution step of `parse_raw_email`: a placeholder
subject is replaced by a non-empty recovered protected-headers subject;
`none` models a propagated exception from the recovery's header decoding. -/
def subjectResolved (raw : PyStr) (subj0 : PyStr) : Option PyStr :=
  if isPlaceholderSubject subj0 then
    match extractProtectedSubject raw with
    | none => none
    | some none => some subj0
    | some (some p) => some (if p ≠ [] then p else subj0)
  else some subj0

/-- Model of `parse_raw_email(raw_message)`, returning the dictionary the
function builds; `none` models a propagated exception (which can only come
from RFC 2047 header decoding). -/
def parseRawEmail (raw : PyStr) : Option (List (String × DVal)) :=
  (decodedFromName raw).bind (fun fromName =>
    (decodedSubject0 raw).bind (fun subj0 =>
      (subjectResolved raw subj0).map (fun subject =>
        let msg := msgFromText raw
        let body := extractBody msg
        [("from_addr", .vs (fromAddrOf raw)), ("from_name", .vs fromName),
         ("subject", .vs subject),
         ("message_id", .vs ((hGet msg.headers "Message-ID").getD [])),
         ("date", .vd (dateModel (hGet msg.headers "Date"))),
         ("in_reply_to", .vs ((hGet msg.headers "In-Reply-To").getD [])),
         ("body", .vs (if body ≠ [] then pyStrip body else [])),
         ("raw_message", .vs raw)])))

/-! ## Concrete inputs used by the claim theorems and witnesses -/

/-- The References-header message of the repository's own test
`test_parse_email_with_references_header`. -/
def refsMsg : PyStr := litS "From: test@example.com\nSubject: Re: Discussion\nDate: Mon, 1 Jan 2024 12:00:00 +0000\nIn-Reply-To: <reply-to@example.com>\nReferences: <first@example.com> <second@example.com> <reply-to@example.com>\n\nReply body."

/-- A message whose Subject encoded-word declares an unknown charset. -/
def c2CexMsg : PyStr := litS "From: t@e.c\nSubject: =?bogus?b?aGVsbG8=?=\n\nBody."

/-- A plain well-formed message. -/
def c2WitMsg : PyStr := litS "From: John Doe <john@example.com>\nSubject: Hello\nDate: Mon, 1 Jan 2024 12:00:00 +0000\n\nBody text."

/-- A message whose subject is a multi-space `Re:`-dots placeholder under the
code's regex, with a recoverable protected-headers subject. -/
def c3CexMsg : PyStr := litS "From: t@e.c\nSubject: Re:   ..\nDate: Mon, 1 Jan 2024 12:00:00 +0000\n\nContent-Type: multipart/mixed; boundary=\"b\";\n protected-headers=\"v1\"\nSubject: X\n\nBody text."

/-- A placeholder-subject message with a recoverable protected subject. -/
def c3WitMsg : PyStr := litS "From: t@e.c\nSubject: ...\n\nContent-Type: multipart/mixed; boundary=\"b\";\n protected-headers=\"v1\"\nSubject: Real One\n\nBody text."

/-- A non-placeholder message with an unrelated protected-headers block. -/
def c3WitMsg2 : PyStr := litS "From: t@e.c\nSubject: Real Subject\n\nContent-Type: multipart/mixed; boundary=\"b\";\n protected-headers=\"v1\"\nSubject: Different\n\nBody text."

/-- A placeholder-subject message with no protected-headers block. -/
def c3WitMsg3 : PyStr := litS "From: t@e.c\nSubject: ...\n\nNo protected headers here."

/-- A plain (not multipart/encrypted) message. -/
def c4WitPlain : PyStr := litS "From: a@b.c\nSubject: Hi\n\nhello"

/-- A multipart/encrypted message with no octet-stream payload. -/
def c4WitNoPayload : PyStr := litS "Content-Type: multipart/encrypted; boundary=\"b\"\n\n--b\nContent-Type: application/pgp-encrypted\n\nVersion: 1\n--b--"

/-- A multipart/encrypted message whose octet-stream payload is still
PGP-armored. -/
def c4WitArmored : PyStr := litS "Content-Type: multipart/encrypted; boundary=\"b\"\n\n--b\nContent-Type: application/octet-stream\n\n-----BEGIN PGP MESSAGE-----\nxxx\n-----END PGP MESSAGE-----\n--b--"

/-- A multipart/encrypted message whose octet-stream payload holds a
decrypted MIME sub-message. -/
def c5WitMsg : PyStr := litS "From: a@b.c\nSubject: S\nContent-Type: multipart/encrypted; boundary=\"b\"\nContent-Disposition: inline\n\n--b\nContent-Type: application/octet-stream\n\nContent-Type: text/plain; charset=UTF-8\n\nSecret body.\n--b--"

/-- The decrypted payload carried by the octet-stream part of `c5WitMsg`. -/
def c5Payload : PyStr := litS "Content-Type: text/plain; charset=UTF-8\n\nSecret body."

/-- A MIME part declaring base64 transfer encoding and an unknown charset. -/
def c6CexPart : Msg :=
  .mk [(litS "Content-Transfer-Encoding", litS "base64"),
       (litS "Content-Type", litS "text/plain; charset=bogus")]
    (.text (litS "aGVsbG8="))

/-- A MIME part with quoted-printable iso-8859-1 content. -/
def c6WitPart : Msg :=
  .mk [(litS "Content-Transfer-Encoding", litS "quoted-printable"),
       (litS "Content-Type", litS "text/plain; charset=iso-8859-1")]
    (.text (litS "Gr=FC=DFe"))

/-- A non-multipart message with base64 body and unknown charset: payload
decoding raises and the raw base64 text becomes the body. -/
def c7CexMsg : PyStr := litS "From: t@e.c\nSubject: T\nContent-Type: text/plain; charset=bogus\nContent-Transfer-Encoding: base64\n\naGVsbG8="

/-- A multipart message with a quoted-printable iso-8859-1 text part. -/
def c7WitMult : PyStr := litS "From: t@e.c\nSubject: T\nContent-Type: multipart/mixed;\n    boundary=\"tb\"\nMIME-Version: 1.0\n\n--tb\nContent-Type: text/plain; charset=\"iso-8859-1\"\nContent-Transfer-Encoding: quoted-printable\n\nGr=FC=DFe\n--tb--"

/-- A non-multipart base64 message with a known charset. -/
def c7WitPlainMsg : PyStr := litS "From: t@e.c\nSubject: T\nContent-Type: text/plain; charset=UTF-8\nContent-Transfer-Encoding: base64\n\naGVsbG8="

/-- A multipart/encrypted message whose octet-stream part holds a decrypted
MIME sub-message with a text/plain body. -/
def c7WitPgp : PyStr := litS "From: a@b.c\nSubject: ...\nMIME-Version: 1.0\nContent-Type: multipart/encrypted;\n protocol=\"application/pgp-encrypted\";\n boundary=\"BB\"\n\n--BB\nContent-Type: application/pgp-encrypted\n\nVersion: 1\n\n--BB\nContent-Type: application/octet-stream\n\nContent-Type: multipart/mixed; boundary=\"II\";\n protected-headers=\"v1\"\nSubject: Re: Project Update\n\n--II\nContent-Type: text/plain; charset=UTF-8\n\nThis is the decrypted body.\n--II--\n--BB--\n"

/-- A message with a parseable Date header carrying no timezone. -/
def c8CexMsg : PyStr := litS "From: t@e.c\nSubject: T\nDate: Mon, 1 Jan 2024 12:00:00\n\nBody."

/-- A message with a Date header carrying an out-of-range numeric timezone
(the primary parse raises; the fallback assumes UTC). -/
def c8WitMsg : PyStr := litS "From: t@e.c\nSubject: T\nDate: Mon, 1 Jan 2024 12:00:00 +9900\n\nBody."

/-- A multipart/encrypted message (used to witness the stripping skip). -/
def c9WitMsg : PyStr := c4WitArmored

/-- A non-multipart message longer than a small ceiling. -/
def c10WitMsg : PyStr := litS "From: a@b.c\n\nsome plain body text"

/-! ## Helper lemmas -/

theorem listFindSomeNone {α β : Type} (f : α → Option β) (l : List α) :
    l.findSome? f = none ↔ ∀ x ∈ l, f x = none := by
  induction l with
  | nil => simp [List.findSome?]
  | cons a as ih =>
    rw [List.findSome?]
    cases hf : f a with
    | some b => simp [hf]
    | none => simp [hf, ih]

theorem findDecryptedNoneIff (m : Msg) :
    findDecrypted m = none ↔ noDecryptedPayload m := by
  unfold findDecrypted noDecryptedPayload
  rw [listFindSomeNone]
  constructor
  · intro h p hp hct
    have hx := h p hp
    rw [if_pos hct] at hx
    cases hs : p.textPayload with
    | none => simp only [hs, Option.getD_none]; decide
    | some s =>
      rw [hs] at hx
      simp only [hs, Option.getD_some]
      by_contra hne
      simp [hne] at hx
  · intro h p hp
    by_cases hct : p.ctype = litS "application/octet-stream"
    · rw [if_pos hct]
      cases hs : p.textPayload with
      | none => rfl
      | some s =>
        have hz := h p hp hct
        rw [hs] at hz
        simp only [Option.getD_some] at hz
        simp [hz]
    · rw [if_neg hct]

theorem filterHdrGoSpec (ls : List PyStr) :
    filterHdrGo false ls = specFilterHdrs ls ∧
    filterHdrGo true ls = specDropFolded ls := by
  induction ls with
  | nil => exact ⟨rfl, rfl⟩
  | cons l ls ih =>
    by_cases hc : isContLine l = true
    · constructor
      · rw [filterHdrGo, specFilterHdrs]
        simp [hc, ih.1]
      · rw [filterHdrGo, specDropFolded]
        simp [hc, ih.2]
    · by_cases hd : (containsChar ':' l ∧ isStrippedHeaderName (headerNameOf l))
      · constructor
        · rw [filterHdrGo, specFilterHdrs]
          simp [hc, hd, ih.2]
        · rw [filterHdrGo, specDropFolded]
          simp [hc, hd, ih.2]
      · constructor
        · rw [filterHdrGo, specFilterHdrs]
          simp [hc, hd, ih.1]
        · rw [filterHdrGo, specDropFolded]
          simp [hc, hd, ih.1]

theorem dotsTailSpec (l : PyStr) : dotsTail l = true ↔ 2 ≤ l.length ∧ ∀ c ∈ l, c = '.' := by
  simp [dotsTail, List.all_eq_true]

theorem specHeadNonSpace {l : PyStr} (h : SpecReDots l) :
    ∀ c t, l = c :: t → isPySpace c = false := by
  cases h with
  | dots l hl ha =>
    intro c t hct
    have : c = '.' := ha c (by rw [hct]; simp)
    rw [this]
    decide
  | rep ws rest hws hrest =>
    intro c t hct
    have : c = 'R' := by
      have := congrArg (fun x => x.headD ' ') hct
      simpa using this.symm
    rw [this]
    decide

theorem dropWhileWsAppend (ws rest : PyStr) (hws : ∀ c ∈ ws, isPySpace c = true)
    (hrest : ∀ c t, rest = c :: t → isPySpace c = false) :
    (ws ++ rest).dropWhile isPySpace = rest := by
  induction ws with
  | nil =>
    cases rest with
    | nil => rfl
    | cons c t => simp [List.dropWhile, hrest c t rfl]
  | cons w ws ih =>
    have hw : isPySpace w = true := hws w (by simp)
    simp only [List.cons_append, List.dropWhile, hw]
    exact ih (fun c hc => hws c (by simp [hc]))

theorem stripReSound : ∀ fuel (l : PyStr),
    dotsTail (stripReUnits fuel l) = true → SpecReDots l := by
  intro fuel
  induction fuel with
  | zero =>
    intro l h
    rcases (dotsTailSpec _).mp h with ⟨hl, ha⟩
    exact SpecReDots.dots _ hl ha
  | succ fuel ih =>
    intro l h
    by_cases hsh : ∃ t, l = 'R' :: 'e' :: ':' :: t
    · obtain ⟨t, rfl⟩ := hsh
      rw [stripReUnits.eq_2] at h
      have hspec := ih _ h
      have h2 := SpecReDots.rep (t.takeWhile isPySpace) (t.dropWhile isPySpace)
        (fun c hc => List.mem_takeWhile_imp hc) hspec
      rwa [List.takeWhile_append_dropWhile] at h2
    · rw [stripReUnits.eq_3 l fuel (fun t ht => hsh ⟨t, ht⟩)] at h
      rcases (dotsTailSpec _).mp h with ⟨hl, ha⟩
      exact SpecReDots.dots _ hl ha

theorem stripReComplete : ∀ (l : PyStr), SpecReDots l →
    ∀ fuel, l.length ≤ fuel → dotsTail (stripReUnits fuel l) = true := by
  intro l h
  induction h with
  | dots l hl ha =>
    intro fuel _
    have hstr : stripReUnits fuel l = l := by
      cases fuel with
      | zero => rfl
      | succ f =>
        refine stripReUnits.eq_3 l f (fun t1 hco => ?_)
        have : 'R' = '.' := by
          have hm : 'R' ∈ l := by rw [hco]; simp
          exact (ha 'R' hm).symm ▸ rfl
        exact absurd this (by decide)
    rw [hstr]
    exact (dotsTailSpec _).mpr ⟨hl, ha⟩
  | rep ws rest hws hrest ih =>
    intro fuel hf
    cases fuel with
    | zero => simp at hf
    | succ f =>
      have hdrop : (ws ++ rest).dropWhile isPySpace = rest :=
        dropWhileWsAppend ws rest hws (fun c t hct => specHeadNonSpace hrest c t hct)
      rw [show stripReUnits (f + 1) ('R' :: 'e' :: ':' :: (ws ++ rest)) =
            stripReUnits f ((ws ++ rest).dropWhile isPySpace) from rfl, hdrop]
      refine ih f ?_
      simp only [List.length_cons, List.length_append] at hf
      omega

theorem reDotsIff (l : PyStr) : matchReDots l = true ↔ SpecReDots l := by
  unfold matchReDots
  exact ⟨stripReSound l.length l, fun h => stripReComplete l h l.length (le_refl _)⟩

theorem placeholderIffSpec (s : PyStr) :
    isPlaceholderSubject s = true ↔ (pyStrip s = [] ∨ SpecReDots (pyStrip s)) := by
  unfold isPlaceholderSubject
  rw [Bool.or_eq_true, decide_eq_true_eq, reDotsIff]

/-- C4: `unwrap_pgp_mime` returns the input unchanged with status `None`
when the top-level content type is not multipart/encrypted; and unchanged
with status `Encrypted` when no octet-stream part has a non-blank text
payload, or when the found payload still begins with the PGP armor marker
after trimming. -/
theorem c4_unwrap_statuses :
    (∀ content : PyStr, (msgFromText content).ctype ≠ litS "multipart/encrypted" →
        unwrapPgpMime content = (content, none))
  ∧ (∀ content : PyStr, (msgFromText content).ctype = litS "multipart/encrypted" →
        noDecryptedPayload (msgFromText content) →
        unwrapPgpMime content = (content, some "encrypted"))
  ∧ (∀ content p, (msgFromText content).ctype = litS "multipart/encrypted" →
        findDecrypted (msgFromText content) = some p →
        startsWithS "-----BEGIN PGP" (pyStrip p) = true →
        unwrapPgpMime content = (content, some "encrypted")) := by
  refine ⟨?_, ?_, ?_⟩
  · intro c h
    unfold unwrapPgpMime
    rw [if_pos h]
  · intro c h hn
    have hfd : findDecrypted (msgFromText c) = none := (findDecryptedNoneIff _).mpr hn
    unfold unwrapPgpMime
    rw [if_neg (by simp [h]), hfd]
  · intro c p h hfd hs
    unfold unwrapPgpMime
    rw [if_neg (by simp [h]), hfd]
    simp [hs]

theorem c4_unwrap_statuses_witness :
    unwrapPgpMime c4WitPlain = (c4WitPlain, none) ∧
    unwrapPgpMime c4WitNoPayload = (c4WitNoPayload, some "encrypted") ∧
    unwrapPgpMime c4WitArmored = (c4WitArmored, some "encrypted") :=
  ⟨c4_unwrap_statuses.1 c4WitPlain (by decide),
   c4_unwrap_statuses.2.1 c4WitNoPayload (by decide)
     ((findDecryptedNoneIff _).mp (by decide)),
   c4_unwrap_statuses.2.2 c4WitArmored
     (litS "-----BEGIN PGP MESSAGE-----\nxxx\n-----END PGP MESSAGE-----")
     (by decide) (by decide) (by decide)⟩

/-- C5: on the unwrap path, the result splits the original at the first
blank line, filters Content-Type / Content-Transfer-Encoding /
Content-Disposition headers with their continuations, and reassembles with
the trimmed payload (directly after a newline when the payload is
self-describing MIME, otherwise after a synthesized text/plain header and a
blank line); with no blank line at all, the input is returned unchanged with
status `Unwrapped`. -/
theorem c5_unwrap_assembly :
    ∀ content p, (msgFromText content).ctype = litS "multipart/encrypted" →
      findDecrypted (msgFromText content) = some p →
      startsWithS "-----BEGIN PGP" (pyStrip p) = false →
      (findNlNl content = none → unwrapPgpMime content = (content, some "unwrapped"))
      ∧ (∀ he, findNlNl content = some he →
          unwrapPgpMime content =
            (specUnwrapAssemble (content.take he) (pyStrip p), some "unwrapped")) := by
  intro c p hct hfd hpg
  constructor
  · intro hnl
    unfold unwrapPgpMime
    rw [if_neg (by simp [hct]), hfd]
    simp [hpg, hnl]
  · intro he hnl
    unfold unwrapPgpMime specUnwrapAssemble
    rw [if_neg (by simp [hct]), hfd]
    simp only [hpg, Bool.false_eq_true, if_false, hnl, (filterHdrGoSpec _).1]

theorem c5_unwrap_assembly_witness :
    findNlNl c5WitMsg = some 98 ∧
    unwrapPgpMime c5WitMsg =
      (specUnwrapAssemble (c5WitMsg.take 98) (pyStrip c5Payload), some "unwrapped") :=
  ⟨by decide,
   (c5_unwrap_assembly c5WitMsg c5Payload (by decide) (by decide) (by decide)).2 98 (by decide)⟩

/-- C9: `strip_large_attachments` leaves multipart/encrypted content
unchanged regardless of its length and of the stripping-loop behaviour. -/
theorem c9_strip_skips_encrypted :
    ∀ (stripLoopModel : Msg → PyStr) (maxSize : Nat) (content : PyStr),
      (msgFromText content).ctype = litS "multipart/encrypted" →
      stripLargeAttachments stripLoopModel maxSize content = content := by
  intro f mx c h
  unfold stripLargeAttachments
  by_cases h1 : c.length ≤ mx
  · rw [if_pos h1]
  · rw [if_neg h1]
    by_cases h2 : ¬ (msgFromText c).isMulti
    · rw [if_pos h2]
    · rw [if_neg h2, if_pos h]

theorem c9_strip_skips_encrypted_witness :
    stripLargeAttachments (fun _ => litS "stripped") 10 c9WitMsg = c9WitMsg :=
  c9_strip_skips_encrypted (fun _ => litS "stripped") 10 c9WitMsg (by decide)

/-- C10: `strip_large_attachments` returns over-ceiling content unchanged
whenever its parsed form is not multipart. -/
theorem c10_strip_skips_non_multipart :
    ∀ (stripLoopModel : Msg → PyStr) (maxSize : Nat) (content : PyStr),
      maxSize < content.length →
      (msgFromText content).isMulti = false →
      stripLargeAttachments stripLoopModel maxSize content = content := by
  intro f mx c _ hmul
  unfold stripLargeAttachments
  by_cases h1 : c.length ≤ mx
  · rw [if_pos h1]
  · rw [if_neg h1, if_pos (by simp [hmul])]

theorem c10_strip_skips_non_multipart_witness :
    10 < c10WitMsg.length ∧
    stripLargeAttachments (fun _ => litS "stripped") 10 c10WitMsg = c10WitMsg :=
  ⟨by decide,
   c10_strip_skips_non_multipart (fun _ => litS "stripped") 10 c10WitMsg
     (by decide) (by decide)⟩

/-- C1: the dictionary returned by `parse_raw_email` has no `references`
key at all, even for a message carrying a References header; the repo's own
test `test_parse_email_with_references_header` expects an ordered token list
under that key. -/
theorem c1_no_references_field :
    (parseRawEmail refsMsg).map (fun d => d.map Prod.fst) =
      some ["from_addr", "from_name", "subject", "message_id", "date",
            "in_reply_to", "body", "raw_message"] ∧
    (parseRawEmail refsMsg).bind (fun d => dGet d "references") = none ∧
    hGet (msgFromText refsMsg).headers "References" =
      some (litS "<first@example.com> <second@example.com> <reply-to@example.com>") :=
  ⟨by decide, by decide, by decide⟩

/-- C2 (counterexample): a Subject encoded-word declaring an unknown charset
makes `parse_raw_email` raise (`LookupError` from `bytes.decode`, which the
`errors="replace"` argument does not prevent). -/
theorem c2_counterexample :
    parseRawEmail c2CexMsg = none ∧
    hGet (msgFromText c2CexMsg).headers "Subject" = some (litS "=?bogus?b?aGVsbG8=?=") :=
  ⟨by decide, by decide⟩

/-- C2 (amended): `parse_raw_email` returns a best-effort ParsedMessage for
every input whose header decoding succeeds (the From display name, the
selected Subject, and — when the subject is a placeholder — the
protected-headers recovery); an unknown or invalid encoded-word charset in
those headers makes it raise instead. -/
theorem c2_parse_total_when_headers_decode :
    ∀ raw : PyStr,
      decodedFromName raw ≠ none →
      decodedSubject0 raw ≠ none →
      (∀ s0, decodedSubject0 raw = some s0 → subjectResolved raw s0 ≠ none) →
      (parseRawEmail raw).isSome := by
  intro raw h1 h2 h3
  obtain ⟨fn, hf⟩ := Option.ne_none_iff_exists'.mp h1
  obtain ⟨s0, hs⟩ := Option.ne_none_iff_exists'.mp h2
  obtain ⟨sub, hr⟩ := Option.ne_none_iff_exists'.mp (h3 s0 hs)
  unfold parseRawEmail
  simp only [hf, hs, hr, Option.some_bind, Option.map_some]
  rfl

theorem c2_parse_total_witness : (parseRawEmail c2WitMsg).isSome :=
  c2_parse_total_when_headers_decode c2WitMsg (by decide) (by decide)
    (by
      intro s0 h
      rw [show decodedSubject0 c2WitMsg = some (litS "Hello") from by decide] at h
      injection h with h'
      subst h'
      decide)

/-- C6 (counterexample): a base64 part declaring an unknown charset makes
`_decode_payload` raise (`LookupError`), rather than substituting U+FFFD. -/
theorem c6_counterexample :
    decodePayloadM c6CexPart = none ∧ cteStripLower c6CexPart = litS "base64" :=
  ⟨by decide, by decide⟩

/-- C6 (amended): `_decode_payload` never signals an error provided the
declared charset (or its utf-8 default) names a known codec — the worst
case is replacement characters; and for quoted-printable/base64 parts it
decodes the transfer encoding to raw bytes first and then decodes those
bytes under the declared charset. -/
theorem c6_decode_payload_policy :
    (∀ m : Msg, (lookupCodec (charsetOrUtf8 m)).isSome → (decodePayloadM m).isSome)
  ∧ (∀ m : Msg,
      (cteStripLower m = litS "quoted-printable" ∨ cteStripLower m = litS "base64") →
      ∀ bs, getPayloadDecodeTrue m = some bs →
        decodePayloadM m = decodeBytes (charsetOrUtf8 m) bs) := by
  constructor
  · intro m hk
    unfold decodePayloadM
    cases h : (if cteStripLower m = litS "quoted-printable" ∨ cteStripLower m = litS "base64"
               then getPayloadDecodeTrue m else none) with
    | some bs => simpa [decodeBytes] using hk
    | none =>
      cases hp : m.payload with
      | text s => simp
      | bytes bs => simpa [decodeBytes] using hk
      | parts ps => simp
  · intro m hcte bs hbs
    unfold decodePayloadM
    rw [if_pos hcte, hbs]

theorem c6_decode_payload_policy_witness :
    (lookupCodec (charsetOrUtf8 c6WitPart)).isSome ∧
    (decodePayloadM c6WitPart).isSome ∧
    decodePayloadM c6WitPart = some (litS "Grüße") ∧
    decodePayloadM c6WitPart = decodeBytes (charsetOrUtf8 c6WitPart) [71, 114, 252, 223, 101] :=
  ⟨by decide,
   c6_decode_payload_policy.1 c6WitPart (by decide),
   by decide,
   c6_decode_payload_policy.2 c6WitPart (Or.inl (by decide)) [71, 114, 252, 223, 101] (by decide)⟩

/-- C8 (counterexample): a Date header that parses but carries no timezone
yields a date that is present yet naive (no timezone offset), via the
primary `parsedate_to_datetime` path. -/
theorem c8_counterexample :
    (parseRawEmail c8CexMsg).bind (fun d => dGet d "date") =
      some (.vd (some ⟨2024, 1, 1, 12, 0, 0, none⟩)) := by decide

/-- C8 (amended): the date field is produced by the primary mail-grammar
parse, which yields a naive timestamp exactly when the header parses with no
recognised timezone; the looser fallback (used only when the primary parse
raises, e.g. on an out-of-range zone) always assumes UTC; when both parses
fail the date is absent, without an error. -/
theorem c8_date_policy :
    (∀ raw : PyStr, (parseRawEmail raw).isSome →
        (parseRawEmail raw).bind (fun d => dGet d "date") =
          some (.vd (dateModel (hGet (msgFromText raw).headers "Date"))))
  ∧ (∀ s dt, dateModel (some s) = some dt → dt.tzOffset = none →
        ∃ t, pyParsedateTz s = some (t, none) ∧ dt = dtOfTuple t none)
  ∧ (∀ s dt, dateFallbackM s = some dt → dt.tzOffset = some 0)
  ∧ (∀ s : PyStr, s ≠ [] → pyParsedateTz s = none → dateModel (some s) = none) := by
  refine ⟨?_, ?_, ?_, ?_⟩
  · intro raw hsome
    cases hf : decodedFromName raw with
    | none =>
      unfold parseRawEmail at hsome
      rw [hf] at hsome
      simp at hsome
    | some fn =>
      cases hs : decodedSubject0 raw with
      | none =>
        unfold parseRawEmail at hsome
        rw [hf] at hsome
        simp only [Option.some_bind] at hsome
        rw [hs] at hsome
        simp at hsome
      | some s0 =>
        cases hr : subjectResolved raw s0 with
        | none =>
          unfold parseRawEmail at hsome
          rw [hf] at hsome
          simp only [Option.some_bind] at hsome
          rw [hs] at hsome
          simp only [Option.some_bind] at hsome
          rw [hr] at hsome
          simp at hsome
        | some sub =>
          unfold parseRawEmail
          simp only [hf, hs, hr, Option.some_bind, Option.map_some]
          rfl
  · intro s dt h htz
    have hred : dateModel (some s) =
        (if s = [] then none
         else
           match parsedateToDatetimeM s with
           | some dt => some dt
           | none => dateFallbackM s) := rfl
    rw [hred] at h
    by_cases hne : s = []
    · rw [if_pos hne] at h
      exact absurd h (by simp)
    · rw [if_neg hne] at h
      cases hp : parsedateToDatetimeM s with
      | some dtp =>
        rw [hp] at h
        injection h with h2
        subst h2
        unfold parsedateToDatetimeM at hp
        cases hq : pyParsedateTz s with
        | none =>
          rw [hq] at hp
          exact absurd hp (by simp)
        | some ttz =>
          rw [hq] at hp
          rcases ttz with ⟨t, tzo⟩
          have hp2 : (if dtValid t = true ∧ tzRangeOk tzo = true
                      then some (dtOfTuple t tzo) else none) = some dtp := hp
          by_cases hv : dtValid t = true ∧ tzRangeOk tzo = true
          · rw [if_pos hv] at hp2
            injection hp2 with h3
            cases tzo with
            | none => exact ⟨t, rfl, h3.symm⟩
            | some o =>
              rw [← h3] at htz
              exact absurd htz (by simp [dtOfTuple])
          · rw [if_neg hv] at hp2
            exact absurd hp2 (by simp)
      | none =>
        rw [hp] at h
        unfold dateFallbackM at h
        cases hq : pyParsedateTz s with
        | none =>
          rw [hq] at h
          exact absurd h (by simp)
        | some ttz =>
          rw [hq] at h
          rcases ttz with ⟨t, tzo⟩
          have h2 : (if dtValid t = true then some (dtOfTuple t (some 0)) else none)
              = some dt := h
          by_cases hv : dtValid t = true
          · rw [if_pos hv] at h2
            injection h2 with h3
            rw [← h3] at htz
            exact absurd htz (by simp [dtOfTuple])
          · rw [if_neg hv] at h2
            exact absurd h2 (by simp)
  · intro s dt h
    unfold dateFallbackM at h
    cases hq : pyParsedateTz s with
    | none =>
      rw [hq] at h
      exact absurd h (by simp)
    | some ttz =>
      rw [hq] at h
      rcases ttz with ⟨t, tzo⟩
      have h2 : (if dtValid t = true then some (dtOfTuple t (some 0)) else none)
          = some dt := h
      by_cases hv : dtValid t = true
      · rw [if_pos hv] at h2
        injection h2 with h3
        rw [← h3]
        rfl
      · rw [if_neg hv] at h2
        exact absurd h2 (by simp)
  · intro s hne hp
    have hred : dateModel (some s) =
        (if s = [] then none
         else
           match parsedateToDatetimeM s with
           | some dt => some dt
           | none => dateFallbackM s) := rfl
    rw [hred, if_neg hne]
    unfold parsedateToDatetimeM dateFallbackM
    rw [hp]

theorem c8_date_policy_witness :
    ((parseRawEmail c8WitMsg).bind (fun d => dGet d "date") =
      some (.vd (dateModel (hGet (msgFromText c8WitMsg).headers "Date")))) ∧
    (∃ t, pyParsedateTz (litS "Mon, 1 Jan 2024 12:00:00") = some (t, none) ∧
      (⟨2024, 1, 1, 12, 0, 0, none⟩ : PyDateTime) = dtOfTuple t none) ∧
    ((⟨2024, 1, 1, 12, 0, 0, some 0⟩ : PyDateTime).tzOffset = some 0) ∧
    dateModel (some (litS "Invalid Date Format")) = none :=
  ⟨c8_date_policy.1 c8WitMsg (by decide),
   c8_date_policy.2.1 (litS "Mon, 1 Jan 2024 12:00:00") ⟨2024, 1, 1, 12, 0, 0, none⟩
     (by decide) rfl,
   c8_date_policy.2.2.1 (litS "Mon, 1 Jan 2024 12:00:00 +9900") ⟨2024, 1, 1, 12, 0, 0, some 0⟩
     (by decide),
   c8_date_policy.2.2.2 (litS "Invalid Date Format") (by decide) (by decide)⟩

theorem parseSubjectProj (raw fn s0 sub : PyStr)
    (hf : decodedFromName raw = some fn) (hs : decodedSubject0 raw = some s0)
    (hr : subjectResolved raw s0 = some sub) :
    (parseRawEmail raw).bind (fun d => dGet d "subject") = some (.vs sub) := by
  unfold parseRawEmail
  simp only [hf, hs, hr, Option.some_bind, Option.map_some]
  rfl

/-- C3 (counterexample): `"Re:   .."` (three spaces) is a placeholder for the
code's regex `(Re:\s*)*\.{2,}` but not for the claim's pattern of `"Re: "`
units with an optional trailing space; on a message with that envelope
subject and a recoverable protected subject, the parser overrides the
subject, which the claim says must never happen for a non-placeholder. -/
theorem c3_counterexample :
    isPlaceholderSubject (litS "Re:   ..") = true ∧
    pyStrip (litS "Re:   ..") = litS "Re:   .." ∧
    ¬ ClaimReDots (litS "Re:   ..") ∧
    (parseRawEmail c3CexMsg).bind (fun d => dGet d "subject") = some (.vs (litS "X")) := by
  refine ⟨by decide, by decide, ?_, by decide⟩
  intro h
  cases h with
  | dots _ hl ha => exact absurd (ha 'R' (by decide)) (by decide)
  | rep0 rest h2 =>
    cases h2 with
    | dots _ hl ha => exact absurd (ha ' ' (by decide)) (by decide)
  | rep1 rest h2 =>
    cases h2 with
    | dots _ hl ha => exact absurd (ha ' ' (by decide)) (by decide)

/-- C3 (amended): a subject is a placeholder exactly when, after trimming,
it is empty or consists of zero-or-more `Re:` units each optionally followed
by a whitespace run, then two-or-more dots; a placeholder subject is
replaced by a non-empty recovered protected-headers subject; when nothing
(or an empty value) is recovered, or the subject is not a placeholder, the
original subject is kept verbatim. -/
theorem c3_placeholder_and_override :
    (∀ s : PyStr, isPlaceholderSubject s = true ↔
        (pyStrip s = [] ∨ SpecReDots (pyStrip s)))
  ∧ (∀ raw fn s0 p, decodedFromName raw = some fn → decodedSubject0 raw = some s0 →
      isPlaceholderSubject s0 = true → extractProtectedSubject raw = some (some p) →
      p ≠ [] →
      (parseRawEmail raw).bind (fun d => dGet d "subject") = some (.vs p))
  ∧ (∀ raw fn s0, decodedFromName raw = some fn → decodedSubject0 raw = some s0 →
      isPlaceholderSubject s0 = true →
      (extractProtectedSubject raw = some none ∨
       extractProtectedSubject raw = some (some [])) →
      (parseRawEmail raw).bind (fun d => dGet d "subject") = some (.vs s0))
  ∧ (∀ raw fn s0, decodedFromName raw = some fn → decodedSubject0 raw = some s0 →
      isPlaceholderSubject s0 = false →
      (parseRawEmail raw).bind (fun d => dGet d "subject") = some (.vs s0)) := by
  refine ⟨placeholderIffSpec, ?_, ?_, ?_⟩
  · intro raw fn s0 p hf hs hpl hex hp
    refine parseSubjectProj raw fn s0 p hf hs ?_
    unfold subjectResolved
    rw [if_pos hpl, hex]
    simp [hp]
  · intro raw fn s0 hf hs hpl hex
    refine parseSubjectProj raw fn s0 s0 hf hs ?_
    unfold subjectResolved
    rw [if_pos hpl]
    rcases hex with hex | hex
    · rw [hex]
    · rw [hex]
      rfl
  · intro raw fn s0 hf hs hpl
    refine parseSubjectProj raw fn s0 s0 hf hs ?_
    unfold subjectResolved
    rw [if_neg (by simp [hpl])]

theorem c3_placeholder_and_override_witness :
    (isPlaceholderSubject (litS "Re: ...") = true ↔
      (pyStrip (litS "Re: ...") = [] ∨ SpecReDots (pyStrip (litS "Re: ...")))) ∧
    ((parseRawEmail c3WitMsg).bind (fun d => dGet d "subject") =
      some (.vs (litS "Real One"))) ∧
    ((parseRawEmail c3WitMsg3).bind (fun d => dGet d "subject") =
      some (.vs (litS "..."))) ∧
    ((parseRawEmail c3WitMsg2).bind (fun d => dGet d "subject") =
      some (.vs (litS "Real Subject"))) :=
  ⟨c3_placeholder_and_override.1 (litS "Re: ..."),
   c3_placeholder_and_override.2.1 c3WitMsg (litS "") (litS "...") (litS "Real One")
     (by decide) (by decide) (by decide) (by decide) (by decide),
   c3_placeholder_and_override.2.2.1 c3WitMsg3 (litS "") (litS "...")
     (by decide) (by decide) (by decide) (Or.inl (by decide)),
   c3_placeholder_and_override.2.2.2 c3WitMsg2 (litS "") (litS "Real Subject")
     (by decide) (by decide) (by decide)⟩

theorem firstDecodedPlainSpec : ∀ (l : List Msg) (b : PyStr),
    firstDecodedPlain l = some b →
    ∃ p, p ∈ l ∧ p.ctype = litS "text/plain" ∧ decodePayloadM p = some b := by
  intro l
  induction l with
  | nil => intro b h; exact absurd h (by simp [firstDecodedPlain])
  | cons p ps ih =>
    intro b h
    rw [firstDecodedPlain] at h
    by_cases hct : p.ctype = litS "text/plain"
    · rw [if_pos hct] at h
      cases hd : decodePayloadM p with
      | some b2 =>
        rw [hd] at h
        injection h with h2
        exact ⟨p, by simp, hct, by rw [hd, h2]⟩
      | none =>
        rw [hd] at h
        obtain ⟨q, hq, hqc, hqd⟩ := ih b h
        exact ⟨q, by simp [hq], hqc, hqd⟩
    · rw [if_neg hct] at h
      obtain ⟨q, hq, hqc, hqd⟩ := ih b h
      exact ⟨q, by simp [hq], hqc, hqd⟩

theorem innerPlainScanSpec : ∀ (l : List Msg) (b : PyStr),
    innerPlainScan l = some (some b) →
    ∃ p, p ∈ l ∧ p.ctype = litS "text/plain" ∧ decodePayloadM p = some b := by
  intro l
  induction l with
  | nil => intro b h; exact absurd h (by simp [innerPlainScan])
  | cons p ps ih =>
    intro b h
    rw [innerPlainScan] at h
    by_cases hct : p.ctype = litS "text/plain"
    · rw [if_pos hct] at h
      cases hd : decodePayloadM p with
      | some ib =>
        rw [hd] at h
        have h1 : (if pyStrip ib ≠ [] then some (some ib) else innerPlainScan ps) =
            some (some b) := h
        by_cases hstrip : pyStrip ib ≠ []
        · rw [if_pos hstrip] at h1
          injection h1 with h2
          injection h2 with h3
          exact ⟨p, by simp, hct, by rw [hd, h3]⟩
        · rw [if_neg hstrip] at h1
          obtain ⟨q, hq, hqc, hqd⟩ := ih b h1
          exact ⟨q, by simp [hq], hqc, hqd⟩
      | none =>
        rw [hd] at h
        exact absurd h (by simp)
    · rw [if_neg hct] at h
      obtain ⟨q, hq, hqc, hqd⟩ := ih b h
      exact ⟨q, by simp [hq], hqc, hqd⟩

theorem octetStrPathSpec : ∀ (q : Msg) (b : PyStr),
    octetStrPath q = some b →
    ∃ s, q.textPayload = some s ∧
      ∃ p, p ∈ pyWalk (msgFromText s) ∧ p.ctype = litS "text/plain" ∧
        decodePayloadM p = some b := by
  intro q b h
  unfold octetStrPath at h
  cases hq : q.textPayload with
  | none => rw [hq] at h; exact absurd h (by simp)
  | some s =>
    rw [hq] at h
    have h1 : (if pyStrip s ≠ [] then
          (match innerPlainScan (pyWalk (msgFromText s)) with
           | some (some ib) => some ib
           | _ => none)
        else none) = some b := h
    by_cases hstrip : pyStrip s ≠ []
    · rw [if_pos hstrip] at h1
      cases hscan : innerPlainScan (pyWalk (msgFromText s)) with
      | none => rw [hscan] at h1; exact absurd h1 (by simp)
      | some o =>
        cases o with
        | none => rw [hscan] at h1; exact absurd h1 (by simp)
        | some ib =>
          rw [hscan] at h1
          injection h1 with h2
          obtain ⟨p, hp, hpc, hpd⟩ := innerPlainScanSpec _ ib hscan
          exact ⟨s, rfl, p, hp, hpc, by rw [hpd, h2]⟩
    · rw [if_neg hstrip] at h1
      exact absurd h1 (by simp)

theorem octetBytesPathSpec : ∀ (q : Msg) (b : PyStr),
    octetBytesPath q = some b →
    ∃ bs, getPayloadDecodeTrue q = some bs ∧
      ∃ p, p ∈ pyWalk (msgFromBytes bs) ∧ p.ctype = litS "text/plain" ∧
        decodePayloadM p = some b := by
  intro q b h
  unfold octetBytesPath at h
  cases hq : getPayloadDecodeTrue q with
  | none => rw [hq] at h; exact absurd h (by simp)
  | some bs =>
    rw [hq] at h
    have h1 : (if bs ≠ [] then
          (match innerPlainScan (pyWalk (msgFromBytes bs)) with
           | some (some ib) => some ib
           | _ => none)
        else none) = some b := h
    by_cases hne : bs ≠ []
    · rw [if_pos hne] at h1
      cases hscan : innerPlainScan (pyWalk (msgFromBytes bs)) with
      | none => rw [hscan] at h1; exact absurd h1 (by simp)
      | some o =>
        cases o with
        | none => rw [hscan] at h1; exact absurd h1 (by simp)
        | some ib =>
          rw [hscan] at h1
          injection h1 with h2
          obtain ⟨p, hp, hpc, hpd⟩ := innerPlainScanSpec _ ib hscan
          exact ⟨bs, rfl, p, hp, hpc, by rw [hpd, h2]⟩
    · rw [if_neg hne] at h1
      exact absurd h1 (by simp)

theorem octetPartBodySpec : ∀ (q : Msg) (b : PyStr),
    octetPartBody q = some b →
    ∃ p, p.ctype = litS "text/plain" ∧ decodePayloadM p = some b ∧
      ((∃ s, q.textPayload = some s ∧ p ∈ pyWalk (msgFromText s)) ∨
       (∃ bs, getPayloadDecodeTrue q = some bs ∧ p ∈ pyWalk (msgFromBytes bs))) := by
  intro q b h
  unfold octetPartBody at h
  cases hs : octetStrPath q with
  | some ib =>
    rw [hs] at h
    injection h with h2
    subst h2
    obtain ⟨s, hqs, p, hp, hpc, hpd⟩ := octetStrPathSpec q ib hs
    exact ⟨p, hpc, hpd, Or.inl ⟨s, hqs, hp⟩⟩
  | none =>
    rw [hs] at h
    obtain ⟨bs, hqb, p, hp, hpc, hpd⟩ := octetBytesPathSpec q b h
    exact ⟨p, hpc, hpd, Or.inr ⟨bs, hqb, hp⟩⟩

theorem octetScanSpec : ∀ (l : List Msg) (b : PyStr),
    octetScan l = some b →
    ∃ q, q ∈ l ∧ q.ctype = litS "application/octet-stream" ∧ octetPartBody q = some b := by
  intro l
  induction l with
  | nil => intro b h; exact absurd h (by simp [octetScan])
  | cons q qs ih =>
    intro b h
    rw [octetScan] at h
    by_cases hct : q.ctype = litS "application/octet-stream"
    · rw [if_pos hct] at h
      cases hd : octetPartBody q with
      | some b2 =>
        rw [hd] at h
        injection h with h2
        exact ⟨q, by simp, hct, by rw [hd, h2]⟩
      | none =>
        rw [hd] at h
        obtain ⟨r, hr, hrc, hrd⟩ := ih b h
        exact ⟨r, by simp [hr], hrc, hrd⟩
    · rw [if_neg hct] at h
      obtain ⟨r, hr, hrc, hrd⟩ := ih b h
      exact ⟨r, by simp [hr], hrc, hrd⟩

/-- C7 (counterexample): a non-multipart message with base64 transfer
encoding and an unknown charset makes `_decode_payload` raise, and the
`except` fallback puts the raw, still base64-encoded payload text into the
body field (neither the decoded text nor the empty string). -/
theorem c7_counterexample :
    (parseRawEmail c7CexMsg).bind (fun d => dGet d "body") = some (.vs (litS "aGVsbG8=")) ∧
    cteStripLower (msgFromText c7CexMsg) = litS "base64" ∧
    decodePayloadM (msgFromText c7CexMsg) = none ∧
    decodeBytes (litS "utf-8")
      (transferDecode (litS "base64") ((litS "aGVsbG8=").map Char.toNat)) =
      some (litS "hello") :=
  ⟨by decide, by decide, by decide, by decide⟩

/-- C7 (amended): the body is always either empty or the successful output
of the charset-aware payload decoder on an actual constituent part (a
`text/plain` part of the message, or, for still-encrypted multipart, of the
message parsed out of an octet-stream part's payload) — except in
non-multipart messages whose payload decoding raises, where the raw string
payload (possibly still transfer-encoded) is used verbatim. -/
theorem c7_body_sources :
    (∀ m : Msg, m.isMulti = true →
        extractBody m = [] ∨
        (∃ p, p ∈ pyWalk m ∧ p.ctype = litS "text/plain" ∧
          decodePayloadM p = some (extractBody m)) ∨
        (m.ctype = litS "multipart/encrypted" ∧
          extractBodyFromPgpPayload m = some (extractBody m)))
  ∧ (∀ m b, extractBodyFromPgpPayload m = some b →
      ∃ q, q ∈ pyWalk m ∧ q.ctype = litS "application/octet-stream" ∧
        ∃ p, p.ctype = litS "text/plain" ∧ decodePayloadM p = some b ∧
          ((∃ s, q.textPayload = some s ∧ p ∈ pyWalk (msgFromText s)) ∨
           (∃ bs, getPayloadDecodeTrue q = some bs ∧ p ∈ pyWalk (msgFromBytes bs))))
  ∧ (∀ m : Msg, m.isMulti = false →
      decodePayloadM m = some (extractBody m) ∨
      (decodePayloadM m = none ∧ extractBody m = (m.textPayload).getD []))
  ∧ (∀ raw : PyStr, (parseRawEmail raw).isSome →
      (parseRawEmail raw).bind (fun d => dGet d "body") =
        some (.vs (if extractBody (msgFromText raw) ≠ []
                   then pyStrip (extractBody (msgFromText raw)) else []))) := by
  refine ⟨?_, ?_, ?_, ?_⟩
  · intro m hm
    have hE : extractBody m =
        (if (firstDecodedPlain (pyWalk m)).getD [] = [] ∧
            m.ctype = litS "multipart/encrypted" then
          (extractBodyFromPgpPayload m).getD []
        else (firstDecodedPlain (pyWalk m)).getD []) := by
      unfold extractBody
      rw [if_pos hm]
    by_cases hc : (firstDecodedPlain (pyWalk m)).getD [] = [] ∧
        m.ctype = litS "multipart/encrypted"
    · rw [if_pos hc] at hE
      cases hpg : extractBodyFromPgpPayload m with
      | none =>
        rw [hpg] at hE
        left
        simpa using hE
      | some bp =>
        rw [hpg] at hE
        right; right
        refine ⟨hc.2, ?_⟩
        rw [hE]
        simp
    · rw [if_neg hc] at hE
      cases hfd : firstDecodedPlain (pyWalk m) with
      | none =>
        rw [hfd] at hE
        left
        simpa using hE
      | some b =>
        rw [hfd] at hE
        simp only [Option.getD_some] at hE
        by_cases hb : b = []
        · left
          rw [hE, hb]
        · right; left
          obtain ⟨p, hp, hpc, hpd⟩ := firstDecodedPlainSpec _ b hfd
          exact ⟨p, hp, hpc, by rw [hpd, hE]⟩
  · intro m b h
    unfold extractBodyFromPgpPayload at h
    obtain ⟨q, hq, hqc, hqb⟩ := octetScanSpec _ b h
    obtain ⟨p, hpc, hpd, hloc⟩ := octetPartBodySpec q b hqb
    exact ⟨q, hq, hqc, p, hpc, hpd, hloc⟩
  · intro m hm
    have hE : extractBody m =
        (match decodePayloadM m with
         | some b => b
         | none =>
           match m.payload with
           | .text s => s
           | _ => []) := by
      unfold extractBody
      rw [if_neg (by simp [hm])]
    cases hd : decodePayloadM m with
    | some b =>
      rw [hd] at hE
      left
      rw [hE]
    | none =>
      right
      refine ⟨rfl, ?_⟩
      rw [hd] at hE
      cases hp : m.payload with
      | text s =>
        rw [hp] at hE
        rw [hE]
        simp [Msg.textPayload, hp]
      | bytes bs =>
        rw [hp] at hE
        rw [hE]
        simp [Msg.textPayload, hp]
      | parts ps => exact absurd hm (by simp [Msg.isMulti, hp])
  · intro raw hsome
    cases hf : decodedFromName raw with
    | none =>
      unfold parseRawEmail at hsome
      rw [hf] at hsome
      simp at hsome
    | some fn =>
      cases hs : decodedSubject0 raw with
      | none =>
        unfold parseRawEmail at hsome
        rw [hf] at hsome
        simp only [Option.some_bind] at hsome
        rw [hs] at hsome
        simp at hsome
      | some s0 =>
        cases hr : subjectResolved raw s0 with
        | none =>
          unfold parseRawEmail at hsome
          rw [hf] at hsome
          simp only [Option.some_bind] at hsome
          rw [hs] at hsome
          simp only [Option.some_bind] at hsome
          rw [hr] at hsome
          simp at hsome
        | some sub =>
          unfold parseRawEmail
          simp only [hf, hs, hr, Option.some_bind, Option.map_some]
          rfl

theorem c7_body_sources_witness :
    (extractBody (msgFromText c7WitMult) = [] ∨
     (∃ p, p ∈ pyWalk (msgFromText c7WitMult) ∧ p.ctype = litS "text/plain" ∧
        decodePayloadM p = some (extractBody (msgFromText c7WitMult))) ∨
     ((msgFromText c7WitMult).ctype = litS "multipart/encrypted" ∧
        extractBodyFromPgpPayload (msgFromText c7WitMult) =
          some (extractBody (msgFromText c7WitMult)))) ∧
    (∃ q, q ∈ pyWalk (msgFromText c7WitPgp) ∧
        q.ctype = litS "application/octet-stream" ∧
        ∃ p, p.ctype = litS "text/plain" ∧
          decodePayloadM p = some (litS "This is the decrypted body.") ∧
          ((∃ s, q.textPayload = some s ∧ p ∈ pyWalk (msgFromText s)) ∨
           (∃ bs, getPayloadDecodeTrue q = some bs ∧ p ∈ pyWalk (msgFromBytes bs)))) ∧
    (decodePayloadM (msgFromText c7WitPlainMsg) =
        some (extractBody (msgFromText c7WitPlainMsg)) ∨
     (decodePayloadM (msgFromText c7WitPlainMsg) = none ∧
        extractBody (msgFromText c7WitPlainMsg) =
          ((msgFromText c7WitPlainMsg).textPayload).getD [])) ∧
    ((parseRawEmail c7WitPlainMsg).bind (fun d => dGet d "body") =
      some (.vs (if extractBody (msgFromText c7WitPlainMsg) ≠ []
                 then pyStrip (extractBody (msgFromText c7WitPlainMsg)) else []))) :=
  ⟨c7_body_sources.1 (msgFromText c7WitMult) (by decide),
   c7_body_sources.2.1 (msgFromText c7WitPgp) (litS "This is the decrypted body.")
     (by decide),
   c7_body_sources.2.2.1 (msgFromText c7WitPlainMsg) (by decide),
   c7_body_sources.2.2.2 c7WitPlainMsg (by decide)⟩
